import Mathlib

/-!
# Betting game front end: session, bet cache and wager submission

A shallow embedding of `src/frontend/app.js` (class `BettingGameApp`, the module
variable `CONTRACT_ADDRESS` and the page elements it reads and writes).
`src/frontend/main.js` is the same class with `CONTRACT_ADDRESS` a constant
address, so without `updateConfig`, the stored address and the checks of
`CONTRACT_ADDRESS`; its states are the states below in which `CONTRACT_ADDRESS` is
set.  Its `loadGameStats` differs and is embedded as `loadGameStatsMain`.

An `async` method is embedded as its run-to-completion segments: the segment that
runs when the method is called, up to its first `await`, and one segment per
`await`, run when the awaited operation settles.  A segment records the
network-bound operation it issues in `calls` and the continuation it leaves behind
in `pending`.  `console.log` and `console.error` are not modelled.
-/

namespace BettingGame

/-! ## JavaScript numbers, as far as the program uses them -/

/-- A Number that is `NaN`, an infinity, or a finite double holding an integer
(both zeros are `num 0`).  These are the values `parseInt` and `Number(bigint)`
return, and the differences of two of them. -/
inductive JSNumber where
  | nan
  | num (v : Int)
  | inf (negative : Bool)
deriving DecidableEq, Repr

/-- The number of binary digits of `n`, by halving at most `fuel` times. -/
def bitLengthAux : Nat → Nat → Nat
  | 0, _ => 0
  | fuel + 1, n => if n = 0 then 0 else bitLengthAux fuel (n / 2) + 1

/-- The number of binary digits of `n`. -/
def bitLength (n : Nat) : Nat := bitLengthAux n n

/-- The double nearest to the natural number `n` (ties to even), `none` when the
result is out of the range of finite doubles: a double keeps 53 binary digits and
its largest finite value is `(2 ^ 53 - 1) * 2 ^ 971`. -/
def roundToDouble (n : Nat) : Option Nat :=
  if n < 2 ^ 53 then some n
  else
    let e := bitLength n - 53
    let q := n / 2 ^ e
    let r := n % 2 ^ e
    let half := 2 ^ (e - 1)
    let q1 := if half < r ∨ (r = half ∧ q % 2 = 1) then q + 1 else q
    if e < 971 ∨ (e = 971 ∧ q1 < 2 ^ 53) then some (q1 * 2 ^ e) else none

/-- The Number for a mathematical integer: `Number(bigint)`, and the last step of
`parseInt`. -/
def toNumber (i : Int) : JSNumber :=
  match roundToDouble i.natAbs with
  | some v => if i < 0 then .num (-(v : Int)) else .num v
  | none => .inf (decide (i < 0))

/-- The operator `-` on two Numbers. -/
def JSNumber.sub : JSNumber → JSNumber → JSNumber
  | .nan, _ => .nan
  | _, .nan => .nan
  | .inf a, .inf b => if a = b then .nan else .inf a
  | .inf a, .num _ => .inf a
  | .num _, .inf b => .inf (!b)
  | .num a, .num b => toNumber (a - b)

/-- The test `v > 0` on a Number. -/
def JSNumber.isPositive : JSNumber → Bool
  | .nan => false
  | .num v => decide (0 < v)
  | .inf negative => !negative

/-- The function `Math.max(0, v)`. -/
def mathMax0 : JSNumber → JSNumber
  | .nan => .nan
  | .num v => .num (max 0 v)
  | .inf negative => if negative then .num 0 else .inf false

/-- White space and line terminators of ECMAScript, which `parseInt` and
`String.prototype.trim` strip. -/
def isWhiteSpace (c : Char) : Bool :=
  let n := c.toNat
  n = 0x09 || n = 0x0A || n = 0x0B || n = 0x0C || n = 0x0D || n = 0x20 || n = 0xA0
    || n = 0x1680 || (0x2000 ≤ n && n ≤ 0x200A) || n = 0x2028 || n = 0x2029
    || n = 0x202F || n = 0x205F || n = 0x3000 || n = 0xFEFF

/-- The value of a character as a digit of the given radix (10 or 16). -/
def digitValue (radix : Nat) (c : Char) : Option Nat :=
  let n := c.toNat
  if 48 ≤ n ∧ n ≤ 57 then some (n - 48)
  else if radix = 16 ∧ 97 ≤ n ∧ n ≤ 102 then some (n - 87)
  else if radix = 16 ∧ 65 ≤ n ∧ n ≤ 70 then some (n - 55)
  else none

/-- The integer written by the longest run of digits at the head of `cs`, with the
number of digits read. -/
def readDigits (radix : Nat) : List Char → Nat → Nat → Nat × Nat
  | [], acc, k => (acc, k)
  | c :: cs, acc, k =>
    match digitValue radix c with
    | some d => readDigits radix cs (acc * radix + d) (k + 1)
    | none => (acc, k)

/-- The part of `parseInt` after the sign: an optional `0x` selects radix 16, then
the digits are read; no digit gives `NaN`. -/
def parseIntUnsigned (negative : Bool) (cs : List Char) : JSNumber :=
  let body : Nat × List Char :=
    match cs with
    | a :: b :: rest => if a = '0' ∧ (b = 'x' ∨ b = 'X') then (16, rest) else (10, cs)
    | _ => (10, cs)
  let read := readDigits body.1 body.2 0 0
  if read.2 = 0 then .nan
  else toNumber (if negative then -(read.1 : Int) else (read.1 : Int))

/-- The global function `parseInt(string)` with no radix argument. -/
def parseInt (s : String) : JSNumber :=
  match s.toList.dropWhile isWhiteSpace with
  | [] => .nan
  | c :: cs =>
    if c = '-' then parseIntUnsigned true cs
    else if c = '+' then parseIntUnsigned false cs
    else parseIntUnsigned false (c :: cs)

/-- The method `String.prototype.trim`. -/
def jsTrim (s : String) : String :=
  String.mk ((s.toList.dropWhile isWhiteSpace).reverse.dropWhile isWhiteSpace).reverse

/-! ## Functions the source takes from its environment -/

/-- The sign of the Number that `parseFloat` returns; the source reads it only in
the test `parseFloat(amount) <= 0`. -/
inductive FloatSign where
  | nan
  | negative
  | zero
  | positive
deriving DecidableEq, Repr

/-- The test `v <= 0` on the result of `parseFloat`: false for `NaN`. -/
def FloatSign.leZero : FloatSign → Bool
  | .negative => true
  | .zero => true
  | _ => false

/-- The global `parseFloat` and the functions of the `ethers` library that decide
a branch of the source.  They are not part of the repository, so the operations
take them as a parameter. -/
structure Externals where
  /-- The sign of `parseFloat(string)`. -/
  parseFloat : String → FloatSign
  /-- `ethers.parseEther(string)`: the amount in wei, `none` when it throws. -/
  parseEther : String → Option Int
  /-- `ethers.isAddress(string)`. -/
  isAddress : String → Bool

/-! ## Data -/

/-- The tuple that the contract method `getBet` returns (see `CONTRACT_ABI`). -/
structure LedgerBet where
  player : String
  amount : Nat
  gameType : Nat
  prediction : Nat
  result : Nat
  won : Bool
  status : Nat
  payout : Nat
  timestamp : Nat
deriving DecidableEq, Repr

/-- An entry of `userBets`: the object `{ id: betId.toString(), ...bet }`. -/
structure Bet extends LedgerBet where
  id : String
deriving DecidableEq, Repr

/-- The object returned by `provider.getSigner()`. -/
structure Signer where
  address : String
deriving DecidableEq, Repr

/-- An instance `new ethers.Contract(CONTRACT_ADDRESS, CONTRACT_ABI, signer)`. -/
structure Contract where
  address : String
  signer : Signer
deriving DecidableEq, Repr

/-- A transaction handle returned by a wager method of the contract. -/
structure Tx where
  hash : Nat
deriving DecidableEq, Repr

/-- The two events of `CONTRACT_ABI`. -/
inductive EventKind where
  | betPlaced
  | betResolved
deriving DecidableEq, Repr

/-- A callback registered by `contract.on(kind, ...)` on a contract instance. -/
structure Listener where
  kind : EventKind
  contract : Contract
deriving DecidableEq, Repr

/-- The second argument of `showNotification`. -/
inductive Severity where
  | success
  | warning
  | error
deriving DecidableEq, Repr

/-- The first argument of `showNotification`: a fixed text, or the text
"Congratulations! You won (formatEther payout) ETH!". -/
inductive Message where
  | text (s : String)
  | youWon (payout : Nat)
deriving DecidableEq, Repr

/-- One call of `showNotification`. -/
structure Notification where
  message : Message
  kind : Severity
deriving DecidableEq, Repr

/-- The text content of a page element: a literal string, the rendering
`parseFloat(ethers.formatEther(wei)).toFixed(4)` of an amount, or the rendering
`toString()` of a Number. -/
inductive Text where
  | lit (s : String)
  | ether4 (wei : Nat)
  | number (v : JSNumber)
deriving DecidableEq, Repr

/-- The content of the element `bet-history`: what the page was loaded with, the
"No bets found" item, the "Connect wallet to view bet history" item, or one item
per bet in the given order. -/
inductive HistoryView where
  | page
  | noBets
  | connectPrompt
  | bets (shown : List Bet)
deriving DecidableEq, Repr

/-- A button of the page: its `innerHTML` and whether its class list holds
`disabled`. -/
structure Button where
  html : String
  disabled : Bool
deriving DecidableEq, Repr

/-- A network-bound operation issued by the program. -/
inductive Call where
  | listAccounts
  | requestAccounts
  | getSigner
  | getBalance (address : Option String)
  | nextBetId (c : Contract)
  | getPlayerBets (c : Contract) (player : String)
  | getBet (c : Contract) (betId : Nat)
  | placeCoinBet (c : Contract) (prediction : JSNumber) (value : Int)
  | placeDiceBet (c : Contract) (prediction : JSNumber) (value : Int)
  | wait (tx : Tx)
deriving DecidableEq, Repr

/-- The continuation of an `async` method suspended at an `await`, named after the
method and the operation awaited, with the local variables it still uses. -/
inductive Pending where
  | checkConnectionAccounts
  | checkConnectionSigner
  | connectWalletAccounts
  | connectWalletSigner
  | updateWalletInfoBalance
  | loadGameStatsNextBetId
  | loadGameStatsBalance (nextBetId : Nat)
  | loadUserBetsIds
  | loadUserBetsBet (betId : Nat) (rest : List Nat)
  | placeCoinBetSubmit
  | placeCoinBetWait
  | placeDiceBetSubmit
  | placeDiceBetWait
deriving DecidableEq, Repr

/-- The fields of `BettingGameApp`, the module variable `CONTRACT_ADDRESS`, the
local storage entry, the page elements the program reads or writes, and the
record of what the program has issued: network operations, notifications,
continuations, contract listeners and timers. -/
structure AppState where
  /-- Whether `window.ethereum` is defined. -/
  ethereum : Bool
  /-- The module variable `CONTRACT_ADDRESS`. -/
  CONTRACT_ADDRESS : Option String
  /-- The entry `contractAddress` of `localStorage`. -/
  storedContractAddress : Option String
  /-- Whether `this.provider` is set. -/
  provider : Bool
  signer : Option Signer
  contract : Option Contract
  userAddress : Option String
  coinPrediction : Option JSNumber
  dicePrediction : Option JSNumber
  userBets : List Bet
  /-- The value of the input `contract-address`. -/
  contractAddressInput : String
  /-- The value of the input `coin-bet-amount`. -/
  coinBetAmount : String
  /-- The value of the input `dice-bet-amount`. -/
  diceBetAmount : String
  /-- The `data-value` of the coin button carrying the class `selected`. -/
  coinSelected : Option String
  /-- The `data-value` of the dice button carrying the class `selected`. -/
  diceSelected : Option String
  totalBets : Text
  totalPayout : Text
  contractBalance : Text
  walletAddress : Text
  walletBalance : Text
  yourWins : Text
  betHistory : HistoryView
  connectWalletBtn : Button
  placeCoinBetBtn : Button
  placeDiceBetBtn : Button
  /-- Every network-bound operation issued so far, oldest first. -/
  calls : List Call
  /-- Every notification shown so far, oldest first. -/
  notifications : List Notification
  /-- The continuations waiting for an operation to settle. -/
  pending : List Pending
  /-- The callbacks registered with `contract.on`; the source never removes one. -/
  listeners : List Listener
  /-- The number of refresh callbacks scheduled with `setTimeout` and not yet run. -/
  refreshTimers : Nat
deriving DecidableEq, Repr

/-- The state after the constructor of `BettingGameApp`, on a page with the given
wallet capability, stored address and initial element contents. -/
def AppState.IsInitial (s : AppState) : Prop :=
  s.CONTRACT_ADDRESS = none ∧ s.provider = false ∧ s.signer = none ∧ s.contract = none ∧
  s.userAddress = none ∧ s.coinPrediction = none ∧ s.dicePrediction = none ∧
  s.userBets = [] ∧ s.calls = [] ∧ s.notifications = [] ∧ s.pending = [] ∧
  s.listeners = [] ∧ s.refreshTimers = 0

/-- The test `!value` is false: the value is neither `null` nor the empty string. -/
def truthy : Option String → Bool
  | some a => a != ""
  | none => false

/-- The session is Connected: the guard `!this.contract || !this.userAddress` of the
wager and reload methods does not fire. -/
def AppState.connected (s : AppState) : Bool :=
  s.contract.isSome && truthy s.userAddress

/-! ## Operations -/

/-- The method `showNotification(message, type)`.  The timer that hides the
notification again is not modelled. -/
def showNotification (message : String) (kind : Severity) (s : AppState) : AppState :=
  { s with notifications := s.notifications ++ [⟨.text message, kind⟩] }

/-- A segment reaches `await operation`: the operation is issued and the rest of
the method is left as a continuation. -/
def issue (c : Call) (p : Pending) (s : AppState) : AppState :=
  { s with calls := s.calls ++ [c], pending := s.pending ++ [p] }

/-- The text of the address display: `slice(0, 6)`, three dots, `slice(-4)`. -/
def shortAddress (a : String) : String :=
  String.mk (a.toList.take 6) ++ "..." ++ String.mk (a.toList.drop (a.length - 4))

/-- The connect button once a wallet is shown as connected. -/
def connectedButton : Button := ⟨"<i class=\"fas fa-check\"></i> Connected", true⟩

/-- The connect button as `disconnect` leaves it. -/
def connectButton : Button := ⟨"<i class=\"fas fa-wallet\"></i> Connect Wallet", false⟩

/-- The last statements of `updateWalletInfo`: the connect button is updated. -/
def updateWalletInfoEnd (s : AppState) : AppState :=
  { s with connectWalletBtn := connectedButton }

/-- The method `updateWalletInfo`, up to `await this.provider.getBalance(...)`.  With
no provider the property access throws inside the `try` and the method goes on
to its last statements. -/
def updateWalletInfo (s : AppState) : AppState :=
  match s.userAddress with
  | none => s
  | some a =>
    if a = "" then s
    else
      let s1 := { s with walletAddress := .lit (shortAddress a) }
      if s1.provider then issue (.getBalance (some a)) .updateWalletInfoBalance s1
      else updateWalletInfoEnd s1

/-- The method `updateWalletInfo` after `await this.provider.getBalance(...)`. -/
def updateWalletInfoOnBalance (r : Except String Nat) (s : AppState) : AppState :=
  match r with
  | .ok balance => updateWalletInfoEnd { s with walletBalance := .ether4 balance }
  | .error _ => updateWalletInfoEnd s

/-- The three statistics elements set to one text. -/
def setStats (t : Text) (s : AppState) : AppState :=
  { s with totalBets := t, totalPayout := t, contractBalance := t }

/-- The `catch` block of `loadGameStats`. -/
def loadGameStatsCatch (message : String) (s : AppState) : AppState :=
  showNotification ("Failed to load stats: " ++ message) .error (setStats (.lit "Error") s)

/-- The method `loadGameStats`, up to `await this.contract.nextBetId()`.
In `main.js` the guard is `if (!this.contract) return;` and the three reads are
awaited together with `Promise.all`. -/
def loadGameStats (s : AppState) : AppState :=
  match s.contract with
  | none => setStats (.lit "Not Connected") s
  | some c =>
    if truthy s.CONTRACT_ADDRESS then issue (.nextBetId c) .loadGameStatsNextBetId s
    else setStats (.lit "Not Connected") s

/-- The method `loadGameStats` after `await this.contract.nextBetId()`, up to
`await this.provider.getBalance(CONTRACT_ADDRESS)`. -/
def loadGameStatsOnNextBetId (r : Except String Nat) (s : AppState) : AppState :=
  match r with
  | .error message => loadGameStatsCatch message s
  | .ok nextBetId =>
    if s.provider then issue (.getBalance s.CONTRACT_ADDRESS) (.loadGameStatsBalance nextBetId) s
    else loadGameStatsCatch "Cannot read properties of null" s

/-- The method `loadGameStats` after `await this.provider.getBalance(CONTRACT_ADDRESS)`. -/
def loadGameStatsOnBalance (nextBetId : Nat) (r : Except String Nat) (s : AppState) :
    AppState :=
  match r with
  | .error message => loadGameStatsCatch message s
  | .ok contractBalance =>
    showNotification "Stats loaded! Note: Some stats may be approximated." .success
      { s with
        contractBalance := .ether4 contractBalance
        totalBets := .number (mathMax0 (toNumber (nextBetId : Int)))
        totalPayout := .lit "N/A" }

/-! ### The bet cache -/

/-- The comparator `(a, b) => parseInt(b.id) - parseInt(a.id)`. -/
def compareBets (a b : Bet) : JSNumber := (parseInt b.id).sub (parseInt a.id)

/-- The order `Array.prototype.sort` reads off the comparator: `a` may stay before
`b` unless the comparator is positive (a `NaN` result counts as zero). -/
def sortsBefore (a b : Bet) : Prop := (compareBets a b).isPositive = false

instance : DecidableRel sortsBefore := fun a b =>
  inferInstanceAs (Decidable ((compareBets a b).isPositive = false))

/-- The call `this.userBets.sort(comparator)`: the sort is stable, so with a
comparator that is a consistent order its result is the stable sorted
arrangement, computed here by insertion. -/
def sortBets (l : List Bet) : List Bet := l.insertionSort sortsBefore

/-- The method `updateBetHistory`.  The sort is in place, so `userBets` itself is
reordered; the rendered items follow the sorted order. -/
def updateBetHistory (s : AppState) : AppState :=
  if s.userBets.length = 0 then { s with betHistory := .noBets }
  else { s with userBets := sortBets s.userBets, betHistory := .bets (sortBets s.userBets) }

/-- The count `this.userBets.filter(bet => bet.won).length`. -/
def winCount (bets : List Bet) : Nat := (bets.filter (fun bet => bet.won)).length

/-- The method `updateUserStats`. -/
def updateUserStats (s : AppState) : AppState :=
  { s with yourWins := .lit (toString (winCount s.userBets)) }

/-- The object `{ id: betId.toString(), ...bet }`. -/
def mkBet (betId : Nat) (bet : LedgerBet) : Bet := { bet with id := toString betId }

/-- The loop `for (const betId of betIds)` of `loadUserBets` from the given ids on,
up to the next `await this.contract.getBet(betId)`, and the two statements after
the loop when no id is left.  With no contract the property access throws and
the `catch` block ends the method. -/
def loadUserBetsLoop : List Nat → AppState → AppState
  | [], s => updateUserStats (updateBetHistory s)
  | betId :: rest, s =>
    match s.contract with
    | some c => issue (.getBet c betId) (.loadUserBetsBet betId rest) s
    | none => s

/-- The method `loadUserBets`, up to `await this.contract.getPlayerBets(...)`. -/
def loadUserBets (s : AppState) : AppState :=
  match s.contract, s.userAddress with
  | some c, some a => if a = "" then s else issue (.getPlayerBets c a) .loadUserBetsIds s
  | _, _ => s

/-- The method `loadUserBets` after `await this.contract.getPlayerBets(...)`: the
cache is emptied and the loop starts. -/
def loadUserBetsOnIds (r : Except String (List Nat)) (s : AppState) : AppState :=
  match r with
  | .error _ => s
  | .ok betIds => loadUserBetsLoop betIds { s with userBets := [] }

/-- The method `loadUserBets` after `await this.contract.getBet(betId)`: the entry is
pushed and the loop goes on. -/
def loadUserBetsOnBet (betId : Nat) (rest : List Nat) (r : Except String LedgerBet)
    (s : AppState) : AppState :=
  match r with
  | .error _ => s
  | .ok bet => loadUserBetsLoop rest { s with userBets := s.userBets ++ [mkBet betId bet] }

/-! ### Wagers -/

/-- The coin bet button while a bet is being placed. -/
def coinButtonBusy : Button := ⟨"<div class=\"loading\"></div> Placing Bet...", true⟩

/-- The coin bet button as the `finally` block leaves it. -/
def coinButtonIdle : Button := ⟨"<i class=\"fas fa-play\"></i> Place Coin Bet", false⟩

/-- The dice bet button while a bet is being placed. -/
def diceButtonBusy : Button := ⟨"<div class=\"loading\"></div> Placing Bet...", true⟩

/-- The dice bet button as the `finally` block leaves it. -/
def diceButtonIdle : Button := ⟨"<i class=\"fas fa-play\"></i> Place Dice Bet", false⟩

/-- The `catch` and `finally` blocks of `placeCoinBet`. -/
def placeCoinBetCatch (s : AppState) : AppState :=
  { showNotification "Error placing bet. Please try again." .error s with
    placeCoinBetBtn := coinButtonIdle }

/-- The method `placeCoinBet`, up to `await this.contract.placeCoinBet(...)`.  The
argument `ethers.parseEther(amount)` is evaluated inside the `try`, before the
contract method is called.  `main.js` has no check of `CONTRACT_ADDRESS`. -/
def placeCoinBet (X : Externals) (s : AppState) : AppState :=
  if truthy s.CONTRACT_ADDRESS = false then
    showNotification "Please set contract address first!" .error s
  else
    match s.contract with
    | none => showNotification "Please connect your wallet first!" .error s
    | some c =>
      if truthy s.userAddress = false then
        showNotification "Please connect your wallet first!" .error s
      else
        match s.coinPrediction with
        | none => showNotification "Please select heads or tails!" .error s
        | some prediction =>
          if s.coinBetAmount = "" ∨ (X.parseFloat s.coinBetAmount).leZero = true then
            showNotification "Please enter a valid bet amount!" .error s
          else
            match X.parseEther s.coinBetAmount with
            | none => placeCoinBetCatch { s with placeCoinBetBtn := coinButtonBusy }
            | some value =>
              issue (.placeCoinBet c prediction value) .placeCoinBetSubmit
                { s with placeCoinBetBtn := coinButtonBusy }

/-- The method `placeCoinBet` after `await this.contract.placeCoinBet(...)`, up to
`await tx.wait()`. -/
def placeCoinBetOnSubmit (r : Except String Tx) (s : AppState) : AppState :=
  match r with
  | .error _ => placeCoinBetCatch s
  | .ok tx =>
    issue (.wait tx) .placeCoinBetWait
      (showNotification "Bet placed! Waiting for confirmation..." .warning s)

/-- The method `placeCoinBet` after `await tx.wait()`: on confirmation the input and
the prediction are cleared and the three refresh methods are started, then the
`finally` block runs. -/
def placeCoinBetOnWait (r : Except String Unit) (s : AppState) : AppState :=
  match r with
  | .error _ => placeCoinBetCatch s
  | .ok _ =>
    let s1 := showNotification "Coin bet placed successfully!" .success s
    let s2 := { s1 with coinBetAmount := "", coinPrediction := none, coinSelected := none }
    { updateWalletInfo (loadUserBets (loadGameStats s2)) with placeCoinBetBtn := coinButtonIdle }

/-- The `catch` and `finally` blocks of `placeDiceBet`. -/
def placeDiceBetCatch (s : AppState) : AppState :=
  { showNotification "Error placing bet. Please try again." .error s with
    placeDiceBetBtn := diceButtonIdle }

/-- The method `placeDiceBet`, up to `await this.contract.placeDiceBet(...)`. -/
def placeDiceBet (X : Externals) (s : AppState) : AppState :=
  if truthy s.CONTRACT_ADDRESS = false then
    showNotification "Please set contract address first!" .error s
  else
    match s.contract with
    | none => showNotification "Please connect your wallet first!" .error s
    | some c =>
      if truthy s.userAddress = false then
        showNotification "Please connect your wallet first!" .error s
      else
        match s.dicePrediction with
        | none => showNotification "Please select a number (1-6)!" .error s
        | some prediction =>
          if s.diceBetAmount = "" ∨ (X.parseFloat s.diceBetAmount).leZero = true then
            showNotification "Please enter a valid bet amount!" .error s
          else
            match X.parseEther s.diceBetAmount with
            | none => placeDiceBetCatch { s with placeDiceBetBtn := diceButtonBusy }
            | some value =>
              issue (.placeDiceBet c prediction value) .placeDiceBetSubmit
                { s with placeDiceBetBtn := diceButtonBusy }

/-- The method `placeDiceBet` after `await this.contract.placeDiceBet(...)`. -/
def placeDiceBetOnSubmit (r : Except String Tx) (s : AppState) : AppState :=
  match r with
  | .error _ => placeDiceBetCatch s
  | .ok tx =>
    issue (.wait tx) .placeDiceBetWait
      (showNotification "Bet placed! Waiting for confirmation..." .warning s)

/-- The method `placeDiceBet` after `await tx.wait()`. -/
def placeDiceBetOnWait (r : Except String Unit) (s : AppState) : AppState :=
  match r with
  | .error _ => placeDiceBetCatch s
  | .ok _ =>
    let s1 := showNotification "Dice bet placed successfully!" .success s
    let s2 := { s1 with diceBetAmount := "", dicePrediction := none, diceSelected := none }
    { updateWalletInfo (loadUserBets (loadGameStats s2)) with placeDiceBetBtn := diceButtonIdle }

/-! ### The session -/

/-- The method `disconnect`. -/
def disconnect (s : AppState) : AppState :=
  { s with
    userAddress := none
    signer := none
    contract := none
    userBets := []
    walletAddress := .lit "Not Connected"
    walletBalance := .lit "0"
    yourWins := .lit "0"
    connectWalletBtn := connectButton
    betHistory := .connectPrompt }

/-- The method `setupEventListeners`: one callback for each of the two events is
registered on the current contract instance. -/
def setupEventListeners (s : AppState) : AppState :=
  match s.contract with
  | none => s
  | some c => { s with listeners := s.listeners ++ [⟨.betPlaced, c⟩, ⟨.betResolved, c⟩] }

/-- The statements of `checkConnection` and `connectWallet` that follow
`await this.provider.getSigner()`: the signer is stored, the contract instance is
built and the session is refreshed.  The flag is `false` when
`new ethers.Contract` throws, which it does for a `null` address; the signer is
stored by then. -/
def bindSession (signer : Signer) (s : AppState) : AppState × Bool :=
  let s1 := { s with signer := some signer }
  match s1.CONTRACT_ADDRESS with
  | none => (s1, false)
  | some address =>
    let s2 := { s1 with contract := some ⟨address, signer⟩ }
    (setupEventListeners (loadUserBets (loadGameStats (updateWalletInfo s2))), true)

/-- The method `checkConnection`, up to `await this.provider.listAccounts()`.
`main.js` has no check of `CONTRACT_ADDRESS`. -/
def checkConnection (s : AppState) : AppState :=
  if truthy s.CONTRACT_ADDRESS = false then s
  else if s.provider then issue .listAccounts .checkConnectionAccounts s
  else s

/-- The method `checkConnection` after `await this.provider.listAccounts()`, up to
`await this.provider.getSigner()`.  The list holds the addresses of the accounts. -/
def checkConnectionOnAccounts (r : Except String (List String)) (s : AppState) : AppState :=
  match r with
  | .ok (account :: _) =>
    if s.provider then issue .getSigner .checkConnectionSigner { s with userAddress := some account }
    else { s with userAddress := some account }
  | _ => s

/-- The method `checkConnection` after `await this.provider.getSigner()`. -/
def checkConnectionOnSigner (r : Except String Signer) (s : AppState) : AppState :=
  match r with
  | .error _ => s
  | .ok signer => (bindSession signer s).1

/-- The `catch` block of `connectWallet`. -/
def connectWalletCatch (s : AppState) : AppState :=
  showNotification "Error connecting wallet. Please try again." .error s

/-- The method `connectWallet`, up to `await this.provider.send(...)`. -/
def connectWallet (s : AppState) : AppState :=
  if truthy s.CONTRACT_ADDRESS = false then
    showNotification "Please set contract address first!" .error s
  else if s.provider then issue .requestAccounts .connectWalletAccounts s
  else connectWalletCatch s

/-- The method `connectWallet` after `await this.provider.send(...)`, up to
`await this.provider.getSigner()`: `accounts[0]` is stored at once. -/
def connectWalletOnAccounts (r : Except String (List String)) (s : AppState) : AppState :=
  match r with
  | .error _ => connectWalletCatch s
  | .ok accounts =>
    if s.provider then issue .getSigner .connectWalletSigner { s with userAddress := accounts.head? }
    else connectWalletCatch { s with userAddress := accounts.head? }

/-- The method `connectWallet` after `await this.provider.getSigner()`. -/
def connectWalletOnSigner (r : Except String Signer) (s : AppState) : AppState :=
  match r with
  | .error _ => connectWalletCatch s
  | .ok signer =>
    match bindSession signer s with
    | (s1, true) => showNotification "Wallet connected successfully!" .success s1
    | (s1, false) => connectWalletCatch s1

/-- The callback registered for `accountsChanged` in `initializeEventListeners`. -/
def accountsChanged (accounts : List String) (s : AppState) : AppState :=
  match accounts with
  | [] => disconnect s
  | account :: _ => loadUserBets (updateWalletInfo { s with userAddress := some account })

/-- The method `updateConfig`. -/
def updateConfig (X : Externals) (s : AppState) : AppState :=
  let address := jsTrim s.contractAddressInput
  if address = "" then showNotification "Please enter a contract address!" .error s
  else if X.isAddress address = false then
    showNotification "Please enter a valid contract address!" .error s
  else
    checkConnection (disconnect
      (showNotification "Contract address updated! Now connect your wallet." .success
        { s with CONTRACT_ADDRESS := some address, storedContractAddress := some address }))

/-- The method `init`.  `main.js` has no stored address: with a wallet present it
goes straight to `checkConnection`. -/
def init (X : Externals) (s : AppState) : AppState :=
  if s.ethereum then
    let s1 := { s with provider := true }
    match s1.storedContractAddress with
    | some savedAddress =>
      if savedAddress ≠ "" ∧ X.isAddress savedAddress = true then
        checkConnection
          { s1 with CONTRACT_ADDRESS := some savedAddress, contractAddressInput := savedAddress }
      else
        showNotification
          "Please enter your deployed contract address in the configuration section first."
          .warning s1
    | none =>
      showNotification
        "Please enter your deployed contract address in the configuration section first."
        .warning s1
  else showNotification "Please install MetaMask to use this DApp!" .error s

/-- The callback of `setInterval` at the end of the file. -/
def autoRefresh (s : AppState) : AppState :=
  if s.contract.isSome then loadGameStats s else s

/-- The click callback of a coin prediction button with the given `data-value`. -/
def selectCoin (value : String) (s : AppState) : AppState :=
  { s with coinSelected := some value, coinPrediction := some (parseInt value) }

/-- The click callback of a dice prediction button with the given `data-value`. -/
def selectDice (value : String) (s : AppState) : AppState :=
  { s with diceSelected := some value, dicePrediction := some (parseInt value) }

/-! ### Contract events -/

/-- The method `String.prototype.toLowerCase`, on ASCII letters. -/
def toLowerCase (s : String) : String := String.mk (s.toList.map Char.toLower)

/-- The callback registered for `BetPlaced`.  `this.userAddress.toLowerCase()` throws
a `TypeError` when `userAddress` is `null`.  Addresses are compared after
lowering ASCII letters. -/
def onBetPlaced (player : String) (s : AppState) : Except String AppState :=
  match s.userAddress with
  | none => .error "TypeError"
  | some a =>
    if toLowerCase player = toLowerCase a then
      .ok (showNotification "Bet placed! Waiting for result..." .warning s)
    else .ok s

/-- The callback registered for `BetResolved`: a notification and a refresh
scheduled with `setTimeout`; the cache is not touched. -/
def onBetResolved (betId : Nat) (player : String) (result : Nat) (won : Bool) (payout : Nat)
    (s : AppState) : Except String AppState :=
  match s.userAddress with
  | none => .error "TypeError"
  | some a =>
    if toLowerCase player = toLowerCase a then
      let s1 :=
        if won then { s with notifications := s.notifications ++ [⟨.youWon payout, .success⟩] }
        else showNotification "Sorry, you lost this bet. Better luck next time!" .error s
      .ok { s1 with refreshTimers := s1.refreshTimers + 1 }
    else .ok s

/-- The callback passed to `setTimeout` by the `BetResolved` callback. -/
def refreshTimer (s : AppState) : AppState :=
  updateWalletInfo (loadUserBets (loadGameStats { s with refreshTimers := s.refreshTimers - 1 }))

/-! ### Settling an awaited operation -/

/-- What the operation awaited by a continuation settles with: its value, or the
message of the error it rejects with. -/
def Pending.Outcome : Pending → Type
  | .checkConnectionAccounts => Except String (List String)
  | .checkConnectionSigner => Except String Signer
  | .connectWalletAccounts => Except String (List String)
  | .connectWalletSigner => Except String Signer
  | .updateWalletInfoBalance => Except String Nat
  | .loadGameStatsNextBetId => Except String Nat
  | .loadGameStatsBalance _ => Except String Nat
  | .loadUserBetsIds => Except String (List Nat)
  | .loadUserBetsBet _ _ => Except String LedgerBet
  | .placeCoinBetSubmit => Except String Tx
  | .placeCoinBetWait => Except String Unit
  | .placeDiceBetSubmit => Except String Tx
  | .placeDiceBetWait => Except String Unit

/-- The segment that runs when the operation awaited by a continuation settles. -/
def resume : (p : Pending) → p.Outcome → AppState → AppState
  | .checkConnectionAccounts, r, s => checkConnectionOnAccounts r s
  | .checkConnectionSigner, r, s => checkConnectionOnSigner r s
  | .connectWalletAccounts, r, s => connectWalletOnAccounts r s
  | .connectWalletSigner, r, s => connectWalletOnSigner r s
  | .updateWalletInfoBalance, r, s => updateWalletInfoOnBalance r s
  | .loadGameStatsNextBetId, r, s => loadGameStatsOnNextBetId r s
  | .loadGameStatsBalance nextBetId, r, s => loadGameStatsOnBalance nextBetId r s
  | .loadUserBetsIds, r, s => loadUserBetsOnIds r s
  | .loadUserBetsBet betId rest, r, s => loadUserBetsOnBet betId rest r s
  | .placeCoinBetSubmit, r, s => placeCoinBetOnSubmit r s
  | .placeCoinBetWait, r, s => placeCoinBetOnWait r s
  | .placeDiceBetSubmit, r, s => placeDiceBetOnSubmit r s
  | .placeDiceBetWait, r, s => placeDiceBetOnWait r s

/-- The continuation `p` leaves the waiting list and its segment runs. -/
def settle (p : Pending) (r : p.Outcome) (s : AppState) : AppState :=
  resume p r { s with pending := s.pending.erase p }

/-- One turn of the event loop: a user action or a wallet event runs its callback,
or an awaited operation settles, or a contract event reaches a registered
callback, or a timer fires.  The callbacks of `accountsChanged` exist only with a
wallet (`if (window.ethereum)`); a callback that throws changes nothing.  A click
runs the callback of a button whatever its class list holds: the source marks a
button by adding the class `disabled` and never reads the mark. -/
inductive Step (X : Externals) : AppState → AppState → Prop where
  | init (s : AppState) : Step X s (init X s)
  | connectWallet (s : AppState) : Step X s (connectWallet s)
  | checkConnection (s : AppState) : Step X s (checkConnection s)
  | updateConfig (s : AppState) : Step X s (updateConfig X s)
  | accountsChanged (accounts : List String) (s : AppState) :
      s.ethereum = true → Step X s (accountsChanged accounts s)
  | disconnect (s : AppState) : Step X s (disconnect s)
  | refreshStats (s : AppState) : Step X s (loadGameStats s)
  | autoRefresh (s : AppState) : Step X s (autoRefresh s)
  | placeCoinBet (s : AppState) : Step X s (placeCoinBet X s)
  | placeDiceBet (s : AppState) : Step X s (placeDiceBet X s)
  | selectCoin (value : String) (s : AppState) : Step X s (selectCoin value s)
  | selectDice (value : String) (s : AppState) : Step X s (selectDice value s)
  | typeContractAddress (value : String) (s : AppState) :
      Step X s { s with contractAddressInput := value }
  | typeCoinAmount (value : String) (s : AppState) : Step X s { s with coinBetAmount := value }
  | typeDiceAmount (value : String) (s : AppState) : Step X s { s with diceBetAmount := value }
  | settle (p : Pending) (r : p.Outcome) (s : AppState) :
      p ∈ s.pending → Step X s (settle p r s)
  | betPlaced (c : Contract) (player : String) (s t : AppState) :
      ⟨.betPlaced, c⟩ ∈ s.listeners → onBetPlaced player s = .ok t → Step X s t
  | betResolved (c : Contract) (betId : Nat) (player : String) (result : Nat) (won : Bool)
      (payout : Nat) (s t : AppState) :
      ⟨.betResolved, c⟩ ∈ s.listeners → onBetResolved betId player result won payout s = .ok t →
      Step X s t
  | refreshTimer (s : AppState) : 0 < s.refreshTimers → Step X s (refreshTimer s)

/-- The states the program can be in: an initial state and any number of turns. -/
inductive Reachable (X : Externals) : AppState → Prop where
  | start (s : AppState) : s.IsInitial → Reachable X s
  | step (s t : AppState) : Reachable X s → Step X s t → Reachable X t

/-! ### Runs of one method with nothing else in between -/

/-- What the contract answers to the two reads of `loadUserBets`. -/
structure Ledger where
  getPlayerBets : String → Except String (List Nat)
  getBet : Nat → Except String LedgerBet

/-- The reads `getBet` of a reload settle one after the other, as long as the
continuation for the next id is waiting. -/
def reloadBets (L : Ledger) : List Nat → AppState → AppState
  | [], s => s
  | betId :: rest, s =>
    if Pending.loadUserBetsBet betId rest ∈ s.pending then
      match L.getBet betId with
      | .ok bet => reloadBets L rest (settle (.loadUserBetsBet betId rest) (.ok bet) s)
      | .error e => settle (.loadUserBetsBet betId rest) (.error e) s
    else s

/-- A whole run of `loadUserBets` against a ledger: the call, then each awaited
read settles with the answer of the ledger, until the method ends. -/
def reload (L : Ledger) (s : AppState) : AppState :=
  if s.connected then
    match L.getPlayerBets (s.userAddress.getD "") with
    | .ok betIds => reloadBets L betIds (settle .loadUserBetsIds (.ok betIds) (loadUserBets s))
    | .error e => settle .loadUserBetsIds (.error e) (loadUserBets s)
  else loadUserBets s

/-- The cache as it can be read at the points where a reload is suspended, in
order: while `getBet` is awaited for each id in turn. -/
def reloadBetsViews (L : Ledger) : List Nat → AppState → List (List Bet)
  | [], _ => []
  | betId :: rest, s =>
    if Pending.loadUserBetsBet betId rest ∈ s.pending then
      s.userBets ::
        (match L.getBet betId with
         | .ok bet => reloadBetsViews L rest (settle (.loadUserBetsBet betId rest) (.ok bet) s)
         | .error _ => [])
    else []

/-- The cache as it can be read during a reload: while `getPlayerBets` is awaited,
then while each `getBet` is awaited. -/
def reloadViews (L : Ledger) (s : AppState) : List (List Bet) :=
  if s.connected then
    (loadUserBets s).userBets ::
      (match L.getPlayerBets (s.userAddress.getD "") with
       | .ok betIds => reloadBetsViews L betIds (settle .loadUserBetsIds (.ok betIds) (loadUserBets s))
       | .error _ => [])
  else []

/-- All four guards at the head of `placeCoinBet` pass. -/
def passesCoinGuards (X : Externals) (s : AppState) : Bool :=
  truthy s.CONTRACT_ADDRESS && s.connected && s.coinPrediction.isSome &&
    !(s.coinBetAmount == "") && !(X.parseFloat s.coinBetAmount).leZero

/-- All four guards at the head of `placeDiceBet` pass. -/
def passesDiceGuards (X : Externals) (s : AppState) : Bool :=
  truthy s.CONTRACT_ADDRESS && s.connected && s.dicePrediction.isSome &&
    !(s.diceBetAmount == "") && !(X.parseFloat s.diceBetAmount).leZero

/-- A whole run of `placeCoinBet` in which the submission and the confirmation
settle with the given outcomes. -/
def placeCoinBetRun (X : Externals) (submit : Except String Tx) (wait : Except String Unit)
    (s : AppState) : AppState :=
  if (placeCoinBet X s).pending = s.pending ++ [.placeCoinBetSubmit] then
    match submit with
    | .ok tx =>
      settle .placeCoinBetWait wait (settle .placeCoinBetSubmit (.ok tx) (placeCoinBet X s))
    | .error e => settle .placeCoinBetSubmit (.error e) (placeCoinBet X s)
  else placeCoinBet X s

/-- A whole run of `placeDiceBet` in which the submission and the confirmation
settle with the given outcomes. -/
def placeDiceBetRun (X : Externals) (submit : Except String Tx) (wait : Except String Unit)
    (s : AppState) : AppState :=
  if (placeDiceBet X s).pending = s.pending ++ [.placeDiceBetSubmit] then
    match submit with
    | .ok tx =>
      settle .placeDiceBetWait wait (settle .placeDiceBetSubmit (.ok tx) (placeDiceBet X s))
    | .error e => settle .placeDiceBetSubmit (.error e) (placeDiceBet X s)
  else placeDiceBet X s

/-- The call is a wager transaction. -/
def Call.isWager : Call → Bool
  | .placeCoinBet _ _ _ => true
  | .placeDiceBet _ _ _ => true
  | _ => false

/-- The number of callbacks registered for an event. -/
def listenerCount (kind : EventKind) (s : AppState) : Nat :=
  (s.listeners.filter (fun l => l.kind = kind)).length

/-! ## A reference environment and concrete states, for evaluation -/

/-- The character is one of `0` to `9`. -/
def isDecimalDigit (c : Char) : Bool := (digitValue 10 c).isSome

/-- The integer written by a list of decimal digits. -/
def decimalValue (ds : List Char) : Nat := (readDigits 10 ds 0 0).1

/-- The exponent part of a decimal literal at the head of `cs`: `e` or `E`, an
optional sign and at least one digit; `0` when there is none. -/
def exponentPart (cs : List Char) : Int :=
  match cs with
  | e :: rest =>
    if e = 'e' ∨ e = 'E' then
      match rest with
      | [] => 0
      | c :: more =>
        if c = '-' then
          (if (more.takeWhile isDecimalDigit) = [] then 0
           else -(decimalValue (more.takeWhile isDecimalDigit) : Int))
        else if c = '+' then (decimalValue (more.takeWhile isDecimalDigit) : Int)
        else (decimalValue (rest.takeWhile isDecimalDigit) : Int)
    else 0
  | [] => 0

/-- The sign of `parseFloat` on the characters after the sign: `Infinity`, or
digits with an optional fraction and exponent; no digit gives `NaN`.  A value
other than zero rounds to zero when it is at most `2 ^ (-1075)`, which needs more
than 323 decimal places. -/
def parseFloatUnsigned (negative : Bool) (cs : List Char) : FloatSign :=
  let signed : FloatSign := if negative then .negative else .positive
  if cs.take 8 = "Infinity".toList then signed
  else
    let whole := cs.takeWhile isDecimalDigit
    let afterWhole := cs.dropWhile isDecimalDigit
    let fraction :=
      match afterWhole with
      | c :: rest => if c = '.' then rest.takeWhile isDecimalDigit else []
      | [] => []
    let afterFraction :=
      match afterWhole with
      | c :: rest => if c = '.' then rest.dropWhile isDecimalDigit else afterWhole
      | [] => []
    if whole = [] ∧ fraction = [] then .nan
    else
      let mantissa := decimalValue (whole ++ fraction)
      let scale : Int := exponentPart afterFraction - (fraction.length : Int)
      if mantissa = 0 then .zero
      else if scale < -323 ∧ mantissa * 2 ^ 1075 ≤ 10 ^ (-scale).toNat then .zero
      else signed

/-- A reference `parseFloat`, reduced to the sign of its result. -/
def parseFloatSign (s : String) : FloatSign :=
  match s.toList.dropWhile isWhiteSpace with
  | [] => .nan
  | c :: cs =>
    if c = '-' then parseFloatUnsigned true cs
    else if c = '+' then parseFloatUnsigned false cs
    else parseFloatUnsigned false (c :: cs)

/-- The part of the reference `parseEther` after the sign: digits, an optional
point and digits, at least one digit in all; digits after the eighteenth place
must be zeros. -/
def parseEtherUnsigned (cs : List Char) : Option Nat :=
  let whole := cs.takeWhile isDecimalDigit
  let afterWhole := cs.dropWhile isDecimalDigit
  let fraction :=
    match afterWhole with
    | c :: rest => if c = '.' then rest else afterWhole
    | [] => []
  if fraction.all isDecimalDigit ∧ 0 < whole.length + fraction.length
      ∧ (fraction.drop 18).all (fun c => c = '0') then
    some (decimalValue whole * 10 ^ 18
      + decimalValue (fraction.take 18) * 10 ^ (18 - (fraction.take 18).length))
  else none

/-- A reference `ethers.parseEther`: the pattern of a fixed-point number of
eighteen decimals with an optional minus sign. -/
def parseEtherDecimal (s : String) : Option Int :=
  match s.toList with
  | [] => none
  | c :: cs =>
    if c = '-' then (parseEtherUnsigned cs).map (fun v => -(v : Int))
    else (parseEtherUnsigned (c :: cs)).map (fun v => (v : Int))

/-- A reference `ethers.isAddress`, for addresses written in lower case: `0x` and
forty hexadecimal digits.  The library also accepts checksummed and ICAP forms. -/
def isLowerHexAddress (a : String) : Bool :=
  match a.toList with
  | z :: x :: ds =>
    z = '0' && x = 'x' && ds.length = 40 &&
      ds.all (fun c => (digitValue 16 c).isSome && !(65 ≤ c.toNat && c.toNat ≤ 70))
  | _ => false

/-- The reference environment. -/
def browser : Externals where
  parseFloat := parseFloatSign
  parseEther := parseEtherDecimal
  isAddress := isLowerHexAddress

/-- The address of a deployed contract. -/
def contractAddress : String := "0x5fbdb2315678afecb367f032d93f642f64180aa3"

/-- The address of a first account. -/
def aliceAddress : String := "0xf39fd6e51aad88f6f4ce6ab8827279cfffb92266"

/-- The address of a second account. -/
def bobAddress : String := "0x70997970c51812dc3a010c7d01b50e0d17dc79c8"

/-- A page just loaded in a browser with a wallet and no stored address, after the
constructor of `BettingGameApp`. -/
def freshPage : AppState where
  ethereum := true
  CONTRACT_ADDRESS := none
  storedContractAddress := none
  provider := false
  signer := none
  contract := none
  userAddress := none
  coinPrediction := none
  dicePrediction := none
  userBets := []
  contractAddressInput := ""
  coinBetAmount := ""
  diceBetAmount := ""
  coinSelected := none
  diceSelected := none
  totalBets := .lit "-"
  totalPayout := .lit "-"
  contractBalance := .lit "-"
  walletAddress := .lit "Not Connected"
  walletBalance := .lit "0"
  yourWins := .lit "0"
  betHistory := .page
  connectWalletBtn := connectButton
  placeCoinBetBtn := coinButtonIdle
  placeDiceBetBtn := diceButtonIdle
  calls := []
  notifications := []
  pending := []
  listeners := []
  refreshTimers := 0

/-- The page after `init`, after the user has typed the contract address. -/
def pageWithInput : AppState :=
  { init browser freshPage with contractAddressInput := contractAddress }

/-- The page after the user has set the contract address: `updateConfig` has asked
the wallet for its accounts. -/
def pageConfiguring : AppState := updateConfig browser pageWithInput

/-- The wallet has answered that no account is connected yet. -/
def pageConfigured : AppState := settle .checkConnectionAccounts (.ok []) pageConfiguring

/-- The user has clicked the connect button. -/
def aliceRequested : AppState := connectWallet pageConfigured

/-- The wallet has granted the account of Alice. -/
def aliceGranted : AppState := settle .connectWalletAccounts (.ok [aliceAddress]) aliceRequested

/-- The signer has arrived: the session is bound and the refresh methods are
suspended at their first read. -/
def aliceBound : AppState := settle .connectWalletSigner (.ok ⟨aliceAddress⟩) aliceGranted

/-- The balance of Alice has arrived. -/
def aliceBalance : AppState := settle .updateWalletInfoBalance (.ok 1000000000000000000) aliceBound

/-- The counter `nextBetId` has arrived. -/
def aliceCounter : AppState := settle .loadGameStatsNextBetId (.ok 3) aliceBalance

/-- The balance of the contract has arrived: the statistics are shown. -/
def aliceStats : AppState :=
  settle (.loadGameStatsBalance 3) (.ok 5000000000000000000) aliceCounter

/-- The bet ids of Alice have arrived, none so far: an idle Connected session. -/
def aliceConnected : AppState := settle .loadUserBetsIds (.ok []) aliceStats

/-- The texts of the notifications shown by the guards at the head of
`placeCoinBet` and `placeDiceBet`. -/
def validationMessages : List String :=
  ["Please set contract address first!", "Please connect your wallet first!",
    "Please select heads or tails!", "Please select a number (1-6)!",
    "Please enter a valid bet amount!"]

/-- The method returned from one of its guards: it showed one of the validation
messages as an error and did nothing else. -/
def RejectedByGuard (s t : AppState) : Prop :=
  ∃ message ∈ validationMessages, t = showNotification message .error s

/-- A bet as the contract returns it: odd ids have won. -/
def sampleBet (betId : Nat) : LedgerBet where
  player := aliceAddress
  amount := 10000000000000000
  gameType := 0
  prediction := 1
  result := betId % 2
  won := betId % 2 == 1
  status := 1
  payout := if betId % 2 == 1 then 19000000000000000 else 0
  timestamp := 1700000000 + betId

/-- A ledger on which Alice has placed the bets 5, 3 and 9. -/
def sampleLedger : Ledger where
  getPlayerBets := fun player => if player = aliceAddress then .ok [5, 3, 9] else .ok []
  getBet := fun betId => .ok (sampleBet betId)

/-- The same ledger behind a connection that fails on the read of bet 3. -/
def flakyLedger : Ledger where
  getPlayerBets := fun player => if player = aliceAddress then .ok [5, 3, 9] else .ok []
  getBet := fun betId => if betId = 3 then .error "network error" else .ok (sampleBet betId)

/-- Alice has chosen heads and typed a stake of half an ether. -/
def aliceReady : AppState := { selectCoin "0" aliceConnected with coinBetAmount := "0.5" }

/-- Alice has clicked the coin bet button: the wager is submitted and pending. -/
def aliceSubmitted : AppState := placeCoinBet browser aliceReady

/-- Alice has typed letters where the stake goes. -/
def aliceTypedLetters : AppState := { aliceReady with coinBetAmount := "abc" }

/-- While her wager is pending, Alice has emptied the stake input. -/
def aliceClearedStake : AppState := { aliceSubmitted with coinBetAmount := "" }

/-- A whole run of `loadGameStats` in which the two reads settle with the given
outcomes; the second read is issued only when the first succeeds. -/
def loadGameStatsRun (next : Except String Nat) (balance : Except String Nat)
    (s : AppState) : AppState :=
  if (loadGameStats s).pending = s.pending ++ [.loadGameStatsNextBetId] then
    match next with
    | .ok nextBetId =>
      if (settle .loadGameStatsNextBetId (.ok nextBetId) (loadGameStats s)).pending.length
          = s.pending.length + 1 then
        settle (.loadGameStatsBalance nextBetId) balance
          (settle .loadGameStatsNextBetId (.ok nextBetId) (loadGameStats s))
      else settle .loadGameStatsNextBetId (.ok nextBetId) (loadGameStats s)
    | .error e => settle .loadGameStatsNextBetId (.error e) (loadGameStats s)
  else loadGameStats s

/-- The method `loadGameStats` of `main.js`, as a whole run: without a contract
binding it returns; the three reads are awaited together with `Promise.all`, which
rejects when one of them does, and the `catch` block only logs.  The reads are
not recorded in `calls`. -/
def loadGameStatsMain (totalBets totalPayout contractBalance : Except String Nat)
    (s : AppState) : AppState :=
  match s.contract with
  | none => s
  | some _ =>
    match totalBets, totalPayout, contractBalance with
    | .ok bets, .ok payout, .ok balance =>
      { s with
        totalBets := .lit (toString bets)
        totalPayout := .ether4 payout
        contractBalance := .ether4 balance }
    | _, _, _ => s

/-- The arguments of a `BetResolved` event. -/
structure ResolvedEvent where
  betId : Nat
  player : String
  result : Nat
  won : Bool
  payout : Nat
deriving DecidableEq, Repr

/-- The `BetResolved` callback runs on each event of a sequence in turn; an error
thrown by the callback ends the sequence. -/
def handleResolved : List ResolvedEvent → AppState → Except String AppState
  | [], s => .ok s
  | e :: rest, s =>
    match onBetResolved e.betId e.player e.result e.won e.payout s with
    | .ok t => handleResolved rest t
    | .error message => .error message

/-- The continuation belongs to `checkConnection` or `connectWallet`. -/
def Pending.isConnect : Pending → Bool
  | .checkConnectionAccounts => true
  | .checkConnectionSigner => true
  | .connectWalletAccounts => true
  | .connectWalletSigner => true
  | _ => false

/-- The wallet has granted the account of Alice, but then `getSigner` fails. -/
def aliceRefused : AppState :=
  settle .connectWalletSigner (.error "user rejected the request") aliceGranted

/-- The bets of Alice have been loaded from the sample ledger. -/
def aliceLoaded : AppState := reload sampleLedger aliceConnected

/-- The wallet of Alice has reported an empty account list. -/
def aliceGone : AppState := accountsChanged [] aliceConnected

/-- Alice has connected her wallet again after the empty account list. -/
def aliceBack : AppState :=
  settle .connectWalletSigner (.ok ⟨aliceAddress⟩)
    (settle .connectWalletAccounts (.ok [aliceAddress]) (connectWallet aliceGone))

/-- The wager of Alice has been submitted and confirmed: the refresh after the
confirmation is under way, its reload waiting for the id list. -/
def aliceConfirmed : AppState :=
  settle .placeCoinBetWait (.ok ()) (settle .placeCoinBetSubmit (.ok ⟨7⟩) aliceSubmitted)

/-- The event `BetResolved` for the new bet has reached the callback, which has
notified Alice and scheduled a refresh. -/
def aliceNotified : AppState :=
  { showNotification "Sorry, you lost this bet. Better luck next time!" .error
      aliceConfirmed with refreshTimers := 1 }

/-- The scheduled refresh has started while the first reload is still waiting: two
reloads are in flight. -/
def twoReloads : AppState := refreshTimer aliceNotified

/-- Both reloads have received the id list, one id, and then the bet. -/
def twoReloadsDone : AppState :=
  settle (.loadUserBetsBet 1 []) (.ok (sampleBet 1))
    (settle (.loadUserBetsBet 1 []) (.ok (sampleBet 1))
      (settle .loadUserBetsIds (.ok [1]) (settle .loadUserBetsIds (.ok [1]) twoReloads)))

/-- The turn from `s` to `t` leaves the signer, the contract binding, the contract
address in memory and in storage and the registered callbacks as they were, and
starts no continuation of `checkConnection` or `connectWallet`. -/
def Keeps (s t : AppState) : Prop :=
  t.signer = s.signer ∧ t.contract = s.contract ∧
  t.CONTRACT_ADDRESS = s.CONTRACT_ADDRESS ∧
  t.storedContractAddress = s.storedContractAddress ∧
  t.listeners = s.listeners ∧
  ∀ p ∈ t.pending, p.isConnect = true → p ∈ s.pending

/-- The signer and the contract binding are present together, and a continuation
of `checkConnection` or `connectWallet` waits only while a contract address is
set. -/
def SessionInvariant (s : AppState) : Prop :=
  s.signer.isSome = s.contract.isSome ∧
  ∀ p ∈ s.pending, p.isConnect = true → s.CONTRACT_ADDRESS.isSome = true

/-- The callbacks registered in `t` are those of `s` and, after them, either
nothing or one callback for each event on the contract instance of `t`. -/
def ListenersGrow (s t : AppState) : Prop :=
  t.listeners = s.listeners ∨
  ∃ c, t.contract = some c ∧ t.listeners = s.listeners ++ [⟨.betPlaced, c⟩, ⟨.betResolved, c⟩]

/-- The stored contract address of `t` is that of `s` or an address that passes the
check of `ethers.isAddress`. -/
def StoredValid (X : Externals) (s t : AppState) : Prop :=
  t.storedContractAddress = s.storedContractAddress ∨
  ∃ address, X.isAddress address = true ∧ t.storedContractAddress = some address

/-- What every turn from `s` to `t` keeps: the stored address stays valid, the
callbacks only grow, and the session invariant is preserved. -/
def TurnFacts (X : Externals) (s t : AppState) : Prop :=
  StoredValid X s t ∧ ListenersGrow s t ∧ (SessionInvariant s → SessionInvariant t)

/-- The integer written by the id of a cached bet. -/
def idValue (b : Bet) : Nat := decimalValue b.id.toList

/-- The code of the character is that of one of `0` to `9`. -/
def DigitCode (c : Char) : Prop := 48 ≤ c.toNat ∧ c.toNat ≤ 57

/-! ## Decimal strings -/

theorem digitChar_toNat (d : Nat) (h : d < 10) : (Nat.digitChar d).toNat = 48 + d := by
  interval_cases d <;> rfl

theorem digitValue_digitChar (d : Nat) (h : d < 10) :
    digitValue 10 (Nat.digitChar d) = some d := by
  interval_cases d <;> rfl

theorem digitCode_digitChar (d : Nat) (h : d < 10) : DigitCode (Nat.digitChar d) := by
  unfold DigitCode; rw [digitChar_toNat d h]; omega

/-- The digits that `Nat.toDigitsCore` puts in front of its accumulator are decimal
digits, at least one, and reading them back adds the number to the value read so
far, shifted. -/
theorem toDigitsCore_read (f : Nat) : ∀ (n : Nat) (ds : List Char), n < f →
    ∃ front : List Char, Nat.toDigitsCore 10 f n ds = front ++ ds ∧ front ≠ [] ∧
      (∀ c ∈ front, DigitCode c) ∧
      ∀ (rest : List Char) (acc k : Nat), ∃ a : Nat,
        readDigits 10 (front ++ rest) acc k = readDigits 10 rest (a + n) (k + front.length)
        ∧ (acc = 0 → a = 0) := by
  induction f with
  | zero => intro n ds h; omega
  | succ f ih =>
    intro n ds h
    have hd : n % 10 < 10 := Nat.mod_lt _ (by decide)
    simp only [Nat.toDigitsCore]
    by_cases h0 : n / 10 = 0
    · refine ⟨[Nat.digitChar (n % 10)], by simp [h0], by simp, ?_, ?_⟩
      · intro c hc
        simp at hc; subst hc; exact digitCode_digitChar _ hd
      · intro rest acc k
        refine ⟨acc * 10, ?_, ?_⟩
        · have hn : acc * 10 + n % 10 = acc * 10 + n := by omega
          simp only [List.singleton_append, readDigits, digitValue_digitChar _ hd,
            List.length_singleton, hn]
          rfl
        · intro ha; subst ha; rfl
    · have hlt : n / 10 < f := by omega
      obtain ⟨front, hfront, _, hall, hread⟩ := ih (n / 10) (Nat.digitChar (n % 10) :: ds) hlt
      refine ⟨front ++ [Nat.digitChar (n % 10)], by simp [h0, hfront], by simp, ?_, ?_⟩
      · intro c hc
        rcases List.mem_append.1 hc with hc | hc
        · exact hall c hc
        · simp at hc; subst hc; exact digitCode_digitChar _ hd
      · intro rest acc k
        obtain ⟨a, ha, ha0⟩ := hread (Nat.digitChar (n % 10) :: rest) acc k
        refine ⟨a * 10, ?_, ?_⟩
        · rw [List.append_assoc, List.singleton_append, ha]
          simp only [readDigits, digitValue_digitChar _ hd, List.length_append,
            List.length_singleton]
          congr 1
          · omega
        · intro h; simp [ha0 h]

theorem toDigits_read (n : Nat) :
    Nat.toDigits 10 n ≠ [] ∧ (∀ c ∈ Nat.toDigits 10 n, DigitCode c) ∧
      readDigits 10 (Nat.toDigits 10 n) 0 0 = (n, (Nat.toDigits 10 n).length) := by
  obtain ⟨front, hfront, hne, hall, hread⟩ := toDigitsCore_read (n + 1) n [] (Nat.lt_succ_self n)
  have hf : Nat.toDigits 10 n = front := by simp [Nat.toDigits, hfront]
  rw [hf]
  refine ⟨hne, hall, ?_⟩
  obtain ⟨a, ha, ha0⟩ := hread [] 0 0
  simp only [List.append_nil] at ha
  rw [ha, ha0 rfl]; simp [readDigits]

theorem isWhiteSpace_of_digitCode (c : Char) (h : DigitCode c) : isWhiteSpace c = false := by
  unfold DigitCode at h
  simp only [isWhiteSpace, Bool.or_eq_false_iff, decide_eq_false_iff_not, Bool.and_eq_false_iff]
  omega

theorem parseInt_of_digits (cs : List Char) (hne : cs ≠ []) (hall : ∀ c ∈ cs, DigitCode c) :
    parseInt (String.mk cs) =
      if (readDigits 10 cs 0 0).2 = 0 then .nan
      else toNumber ((readDigits 10 cs 0 0).1 : Int) := by
  match cs, hne, hall with
  | c :: cs, _, hall =>
    have hc : DigitCode c := hall c (by simp)
    have hw := isWhiteSpace_of_digitCode c hc
    have h1 : c ≠ '-' := by rintro rfl; exact absurd hc (by unfold DigitCode; decide)
    have h2 : c ≠ '+' := by rintro rfl; exact absurd hc (by unfold DigitCode; decide)
    simp only [parseInt, List.dropWhile, hw, h1, h2, if_false]
    unfold parseIntUnsigned
    match cs, hall with
    | [], _ => simp
    | b :: rest, hall =>
      have hb : DigitCode b := hall b (by simp)
      have h3 : b ≠ 'x' := by rintro rfl; exact absurd hb (by unfold DigitCode; decide)
      have h4 : b ≠ 'X' := by rintro rfl; exact absurd hb (by unfold DigitCode; decide)
      simp [h3, h4]

/-- On the decimal string of a natural number `parseInt` returns the double nearest
to the number. -/
theorem parseInt_toString (n : Nat) : parseInt (toString n) = toNumber (n : Int) := by
  obtain ⟨hne, hall, hread⟩ := toDigits_read n
  have hs : toString n = String.mk (Nat.toDigits 10 n) := rfl
  rw [hs, parseInt_of_digits _ hne hall, hread]
  have hlen : (Nat.toDigits 10 n).length ≠ 0 := by
    intro h; exact hne (List.length_eq_zero.1 h)
  simp [hlen]

/-- The decimal string of a natural number writes that number. -/
theorem decimalValue_toString (n : Nat) : decimalValue (toString n).toList = n := by
  have hs : (toString n).toList = Nat.toDigits 10 n := rfl
  rw [hs, decimalValue, (toDigits_read n).2.2]

theorem roundToDouble_small (n : Nat) (h : n < 2 ^ 53) : roundToDouble n = some n := by
  unfold roundToDouble; exact if_pos h

theorem toNumber_small (n : Nat) (h : n < 2 ^ 53) : toNumber (n : Int) = .num n := by
  have hn : ((n : Int)).natAbs = n := Int.natAbs_ofNat n
  have h0 : ¬ ((n : Int) < 0) := by omega
  simp only [toNumber, hn, roundToDouble_small n h, h0, if_false]

/-- The difference of two integers below `2 ^ 53` is exact. -/
theorem sub_small (a b : Nat) (ha : a < 2 ^ 53) (hb : b < 2 ^ 53) :
    (JSNumber.num (a : Int)).sub (.num (b : Int)) = .num ((a : Int) - (b : Int)) := by
  have hlt : ((a : Int) - (b : Int)).natAbs < 2 ^ 53 := by omega
  simp only [JSNumber.sub, toNumber, roundToDouble_small _ hlt]
  split
  · congr 1; omega
  · congr 1; omega

/-! ## The bet cache: reload, order, win count -/

theorem orderedInsert_congr (r t : Bet → Bet → Prop) [DecidableRel r] [DecidableRel t]
    (a : Bet) : ∀ l : List Bet, (∀ b ∈ l, r a b ↔ t a b) →
      List.orderedInsert r a l = List.orderedInsert t a l
  | [], _ => rfl
  | b :: l, h => by
    have hb : r a b ↔ t a b := h b (by simp)
    have ih := orderedInsert_congr r t a l (fun c hc => h c (by simp [hc]))
    by_cases hr : r a b
    · simp [List.orderedInsert, hr, hb.1 hr]
    · have ht : ¬ t a b := fun x => hr (hb.2 x)
      simp [List.orderedInsert, hr, ht, ih]

/-- Two orders that agree on the elements of a list sort it alike. -/
theorem insertionSort_congr (r t : Bet → Bet → Prop) [DecidableRel r] [DecidableRel t] :
    ∀ l : List Bet, (∀ a ∈ l, ∀ b ∈ l, r a b ↔ t a b) →
      List.insertionSort r l = List.insertionSort t l
  | [], _ => rfl
  | a :: l, h => by
    have ih := insertionSort_congr r t l
      (fun x hx y hy => h x (by simp [hx]) y (by simp [hy]))
    simp only [List.insertionSort, ih]
    apply orderedInsert_congr
    intro b hb
    have hb2 : b ∈ l := (List.perm_insertionSort t l).subset hb
    exact h a (by simp) b (by simp [hb2])

/-- For ids that are decimal strings of integers below `2 ^ 53` the comparator
orders by the integers. -/
theorem sortsBefore_small (a b : Bet) (m n : Nat) (ha : a.id = toString m)
    (hb : b.id = toString n) (hm : m < 2 ^ 53) (hn : n < 2 ^ 53) :
    sortsBefore a b ↔ idValue b ≤ idValue a := by
  have va : idValue a = m := by rw [idValue, ha, decimalValue_toString]
  have vb : idValue b = n := by rw [idValue, hb, decimalValue_toString]
  rw [va, vb]
  unfold sortsBefore compareBets
  rw [ha, hb, parseInt_toString, parseInt_toString, toNumber_small m hm, toNumber_small n hn,
    sub_small n m hn hm]
  simp only [JSNumber.isPositive, decide_eq_false_iff_not]
  omega

theorem sortBets_perm (l : List Bet) : (sortBets l).Perm l :=
  List.perm_insertionSort _ l

theorem winCount_eq_countP (bets : List Bet) :
    winCount bets = bets.countP (fun bet => bet.won) := by
  unfold winCount
  rw [List.countP_eq_length_filter]

/-- After the loop of `loadUserBets` has run to its end against a ledger that
answers every read, the cache holds the entries it had and one entry per id. -/
theorem reloadBets_loop (L : Ledger) (bets : Nat → LedgerBet) (c : Contract) :
    ∀ (betIds : List Nat) (s : AppState), s.contract = some c →
      (∀ betId ∈ betIds, L.getBet betId = .ok (bets betId)) →
      (reloadBets L betIds (loadUserBetsLoop betIds s)).userBets.Perm
        (s.userBets ++ betIds.map (fun betId => mkBet betId (bets betId)))
  | [], s, _, _ => by
    simp only [reloadBets, loadUserBetsLoop, updateUserStats, updateBetHistory, List.map_nil,
      List.append_nil]
    split
    · exact List.Perm.refl _
    · exact sortBets_perm _
  | betId :: rest, s, hc, hb => by
    have hget : L.getBet betId = .ok (bets betId) := hb betId (by simp)
    have hstart : loadUserBetsLoop (betId :: rest) s
        = issue (.getBet c betId) (.loadUserBetsBet betId rest) s := by
      simp only [loadUserBetsLoop, hc]
    have hmem : Pending.loadUserBetsBet betId rest
        ∈ (issue (.getBet c betId) (.loadUserBetsBet betId rest) s).pending := by
      simp [issue]
    have hsettle : settle (.loadUserBetsBet betId rest) (.ok (bets betId))
          (issue (.getBet c betId) (.loadUserBetsBet betId rest) s)
        = loadUserBetsLoop rest
          { issue (.getBet c betId) (.loadUserBetsBet betId rest) s with
            pending := (issue (.getBet c betId) (.loadUserBetsBet betId rest) s).pending.erase
              (.loadUserBetsBet betId rest)
            userBets := s.userBets ++ [mkBet betId (bets betId)] } := rfl
    rw [hstart, reloadBets, if_pos hmem, hget]
    dsimp only
    rw [hsettle]
    have ih := reloadBets_loop L bets c rest
      { issue (.getBet c betId) (.loadUserBetsBet betId rest) s with
        pending := (issue (.getBet c betId) (.loadUserBetsBet betId rest) s).pending.erase
          (.loadUserBetsBet betId rest)
        userBets := s.userBets ++ [mkBet betId (bets betId)] }
      hc (fun x hx => hb x (by simp [hx]))
    simpa only [List.append_assoc, List.singleton_append, List.map_cons] using ih

/-- The state in which `loadUserBets` leaves a Connected session, and the state
after the id list has arrived. -/
theorem reload_unfold (L : Ledger) (s : AppState) (c : Contract) (account : String)
    (betIds : List Nat) (hc : s.contract = some c) (haccount : s.userAddress = some account)
    (hne : account ≠ "") (hids : L.getPlayerBets account = .ok betIds) :
    loadUserBets s = issue (.getPlayerBets c account) .loadUserBetsIds s ∧
    reload L s = reloadBets L betIds (loadUserBetsLoop betIds
      { issue (.getPlayerBets c account) .loadUserBetsIds s with
        pending := (issue (.getPlayerBets c account) .loadUserBetsIds s).pending.erase
          .loadUserBetsIds
        userBets := [] }) ∧
    reloadViews L s = s.userBets :: reloadBetsViews L betIds (loadUserBetsLoop betIds
      { issue (.getPlayerBets c account) .loadUserBetsIds s with
        pending := (issue (.getPlayerBets c account) .loadUserBetsIds s).pending.erase
          .loadUserBetsIds
        userBets := [] }) := by
  have hconn : s.connected = true := by
    simp [AppState.connected, hc, haccount, truthy, hne]
  have hstart : loadUserBets s = issue (.getPlayerBets c account) .loadUserBetsIds s := by
    simp only [loadUserBets, hc, haccount, hne, if_false]
  have hsettle : settle .loadUserBetsIds (.ok betIds)
        (issue (.getPlayerBets c account) .loadUserBetsIds s)
      = loadUserBetsLoop betIds
        { issue (.getPlayerBets c account) .loadUserBetsIds s with
          pending := (issue (.getPlayerBets c account) .loadUserBetsIds s).pending.erase
            .loadUserBetsIds
          userBets := [] } := rfl
  refine ⟨hstart, ?_, ?_⟩
  · unfold reload
    rw [if_pos hconn, haccount, Option.getD_some, hids]
    dsimp only
    rw [hstart, hsettle]
  · unfold reloadViews
    rw [if_pos hconn, haccount, Option.getD_some, hids]
    dsimp only
    rw [hstart, hsettle]
    rfl

/-- A completed reload against a ledger that answers every read leaves a
permutation of the mapped id list in the cache. -/
theorem reload_userBets_perm (L : Ledger) (s : AppState) (account : String)
    (betIds : List Nat) (bets : Nat → LedgerBet)
    (hcontract : s.contract.isSome = true) (haccount : s.userAddress = some account)
    (hne : account ≠ "") (hids : L.getPlayerBets account = .ok betIds)
    (hbets : ∀ betId ∈ betIds, L.getBet betId = .ok (bets betId)) :
    (reload L s).userBets.Perm (betIds.map (fun betId => mkBet betId (bets betId))) := by
  obtain ⟨c, hc⟩ := Option.isSome_iff_exists.1 hcontract
  rw [(reload_unfold L s c account betIds hc haccount hne hids).2.1]
  have h := reloadBets_loop L bets c betIds
    { issue (.getPlayerBets c account) .loadUserBetsIds s with
      pending := (issue (.getPlayerBets c account) .loadUserBetsIds s).pending.erase
        .loadUserBetsIds
      userBets := [] } hc hbets
  simpa only [List.nil_append] using h

/-- C1 (as amended): with a contract binding and an account, against a ledger whose
`getPlayerBets(account)` and every `getBet(id)` succeed, a run of `loadUserBets`
that completes with nothing else running between its awaits leaves in `userBets`
a permutation of the list that maps each returned id, in turn, to the record
made of the decimal string of the id and the fields of `getBet(id)`: one entry
per returned id, whatever the cache held. -/
theorem loadUserBets_replaces_cache (L : Ledger) (s : AppState) (account : String)
    (betIds : List Nat) (bets : Nat → LedgerBet)
    (hcontract : s.contract.isSome = true) (haccount : s.userAddress = some account)
    (hne : account ≠ "") (hids : L.getPlayerBets account = .ok betIds)
    (hbets : ∀ betId ∈ betIds, L.getBet betId = .ok (bets betId)) :
    (reload L s).userBets.Perm (betIds.map (fun betId => mkBet betId (bets betId))) ∧
      (reload L s).userBets.length = betIds.length := by
  have hperm := reload_userBets_perm L s account betIds bets hcontract haccount hne hids hbets
  exact ⟨hperm, by rw [hperm.length_eq, List.length_map]⟩

/-- C2 (as amended): for every cache whose ids are the decimal strings of pairwise
distinct integers below `2 ^ 53`, the sequence that `updateBetHistory` sorts and
renders is a permutation of the cache in which the integers written by the ids
are strictly decreasing; ids 5, 3, 9 come out in the order 9, 5, 3. -/
theorem sortBets_descending_below_two_pow_53 :
    (∀ (s : AppState) (cache : List Bet), s.userBets = cache → cache ≠ [] →
      (∀ b ∈ cache, ∃ n : Nat, n < 2 ^ 53 ∧ b.id = toString n) →
      (cache.map (fun b => b.id)).Nodup →
      (sortBets cache).Perm cache ∧
        (sortBets cache).Pairwise (fun a b => idValue b < idValue a) ∧
        (updateBetHistory s).betHistory = .bets (sortBets cache) ∧
        (updateBetHistory s).userBets = sortBets cache) ∧
    (∀ x y z : LedgerBet,
      sortBets [mkBet 5 x, mkBet 3 y, mkBet 9 z] = [mkBet 9 z, mkBet 5 x, mkBet 3 y]) := by
  constructor
  · intro s cache hs hne hids hnodup
    have hsame : sortBets cache
        = cache.insertionSort (fun a b => idValue b ≤ idValue a) := by
      apply insertionSort_congr
      intro a ha b hb
      obtain ⟨m, hm, ham⟩ := hids a ha
      obtain ⟨n, hn, hbn⟩ := hids b hb
      exact sortsBefore_small a b m n ham hbn hm hn
    have hperm : (sortBets cache).Perm cache := sortBets_perm cache
    refine ⟨hperm, ?_, ?_⟩
    · haveI : IsTotal Bet (fun a b => idValue b ≤ idValue a) := ⟨fun a b => le_total _ _⟩
      haveI : IsTrans Bet (fun a b => idValue b ≤ idValue a) :=
        ⟨fun a b c hab hbc => le_trans hbc hab⟩
      have hsorted : (sortBets cache).Pairwise (fun a b => idValue b ≤ idValue a) := by
        rw [hsame]
        exact List.sorted_insertionSort (fun a b => idValue b ≤ idValue a) cache
      have hnd : ((sortBets cache).map (fun b => b.id)).Nodup :=
        (hperm.map (fun b => b.id)).nodup_iff.2 hnodup
      have hne2 : (sortBets cache).Pairwise (fun a b => a.id ≠ b.id) := by
        have h := hnd
        unfold List.Nodup at h
        rwa [List.pairwise_map] at h
      refine (hsorted.and hne2).imp_of_mem ?_
      intro a b ha hb hab
      obtain ⟨m, _, ham⟩ := hids a (hperm.subset ha)
      obtain ⟨n, _, hbn⟩ := hids b (hperm.subset hb)
      have va : idValue a = m := by rw [idValue, ham, decimalValue_toString]
      have vb : idValue b = n := by rw [idValue, hbn, decimalValue_toString]
      rcases Nat.lt_or_ge (idValue b) (idValue a) with h | h
      · exact h
      · exfalso
        apply hab.2
        have hmn : m = n := by omega
        rw [ham, hbn, hmn]
    · have hlen : ¬ s.userBets.length = 0 := by
        rw [hs]
        exact fun h => hne (List.length_eq_zero.1 h)
      unfold updateBetHistory
      rw [if_neg hlen, hs]
      exact ⟨rfl, rfl⟩
  · intro x y z
    have h5 : parseInt (toString 5) = .num 5 := by decide
    have h3 : parseInt (toString 3) = .num 3 := by decide
    have h9 : parseInt (toString 9) = .num 9 := by decide
    have e1 : ¬ sortsBefore (mkBet 5 x) (mkBet 9 z) := by
      simp only [sortsBefore, compareBets, mkBet, h5, h9]; decide
    have e2 : sortsBefore (mkBet 5 x) (mkBet 3 y) := by
      simp only [sortsBefore, compareBets, mkBet, h5, h3]; decide
    have e3 : ¬ sortsBefore (mkBet 3 y) (mkBet 9 z) := by
      simp only [sortsBefore, compareBets, mkBet, h3, h9]; decide
    simp only [sortBets, List.insertionSort, List.orderedInsert, e1, e2, e3, if_true, if_false]

/-- The claim C2 applied to a cache of three bets with ids 5, 3 and 9. -/
theorem sortBets_descending_witness :
    (sortBets [mkBet 5 ⟨aliceAddress, 1, 0, 0, 0, false, 0, 0, 0⟩,
        mkBet 3 ⟨aliceAddress, 1, 0, 0, 0, false, 0, 0, 0⟩,
        mkBet 9 ⟨aliceAddress, 1, 0, 0, 0, false, 0, 0, 0⟩]).Pairwise
      (fun a b => idValue b < idValue a) :=
  (sortBets_descending_below_two_pow_53.1
    { aliceConnected with userBets :=
        [mkBet 5 ⟨aliceAddress, 1, 0, 0, 0, false, 0, 0, 0⟩,
          mkBet 3 ⟨aliceAddress, 1, 0, 0, 0, false, 0, 0, 0⟩,
          mkBet 9 ⟨aliceAddress, 1, 0, 0, 0, false, 0, 0, 0⟩] }
    [mkBet 5 ⟨aliceAddress, 1, 0, 0, 0, false, 0, 0, 0⟩,
      mkBet 3 ⟨aliceAddress, 1, 0, 0, 0, false, 0, 0, 0⟩,
      mkBet 9 ⟨aliceAddress, 1, 0, 0, 0, false, 0, 0, 0⟩]
    rfl (by decide)
    (by
      intro b hb
      simp only [List.mem_cons, List.mem_singleton, List.not_mem_nil, or_false] at hb
      rcases hb with rfl | rfl | rfl
      · exact ⟨5, by decide, rfl⟩
      · exact ⟨3, by decide, rfl⟩
      · exact ⟨9, by decide, rfl⟩)
    (by decide)).2.1

/-- C2 as stated fails: two bets whose ids are the decimal strings of the distinct
integers `2 ^ 53` and `2 ^ 53 + 1` stay in increasing order, because `parseInt`
returns the same Number for both ids and the comparator returns zero. -/
theorem sortBets_large_ids_not_descending :
    ([mkBet 9007199254740992 ⟨aliceAddress, 1, 0, 0, 0, false, 0, 0, 0⟩,
        mkBet 9007199254740993 ⟨aliceAddress, 1, 0, 0, 0, false, 0, 0, 0⟩].map (fun b => b.id)
      = [toString 9007199254740992, toString 9007199254740993]) ∧
    [9007199254740992, 9007199254740993].Nodup ∧
    compareBets (mkBet 9007199254740992 ⟨aliceAddress, 1, 0, 0, 0, false, 0, 0, 0⟩)
      (mkBet 9007199254740993 ⟨aliceAddress, 1, 0, 0, 0, false, 0, 0, 0⟩) = .num 0 ∧
    (sortBets [mkBet 9007199254740992 ⟨aliceAddress, 1, 0, 0, 0, false, 0, 0, 0⟩,
        mkBet 9007199254740993 ⟨aliceAddress, 1, 0, 0, 0, false, 0, 0, 0⟩]).map idValue
      = [9007199254740992, 9007199254740993] ∧
    ¬ (sortBets [mkBet 9007199254740992 ⟨aliceAddress, 1, 0, 0, 0, false, 0, 0, 0⟩,
        mkBet 9007199254740993 ⟨aliceAddress, 1, 0, 0, 0, false, 0, 0, 0⟩]).Pairwise
      (fun a b => idValue b < idValue a) := by
  decide

/-- C3: the win count that `updateUserStats` shows is the number of cached bets
whose `won` field is true, three bets with `won` true, false, true give 2, and
the cache is not changed. -/
theorem updateUserStats_counts_wins :
    (∀ s : AppState,
      (updateUserStats s).yourWins
          = .lit (toString (s.userBets.countP (fun bet => bet.won = true))) ∧
        (updateUserStats s).userBets = s.userBets) ∧
    (∀ a b c : Bet,
      winCount [{ a with won := true }, { b with won := false }, { c with won := true }] = 2) := by
  constructor
  · intro s
    constructor
    · simp only [updateUserStats, winCount_eq_countP]
      congr
      funext bet
      simp
    · rfl
  · intro a b c
    simp [winCount, List.filter]

/-- The claim C1 as amended, applied to the session of Alice and a ledger with her
bets 5, 3 and 9. -/
theorem loadUserBets_replaces_cache_witness :
    (reload sampleLedger aliceConnected).userBets.Perm
        ([5, 3, 9].map (fun betId => mkBet betId (sampleBet betId))) ∧
      (reload sampleLedger aliceConnected).userBets.length = [5, 3, 9].length :=
  loadUserBets_replaces_cache sampleLedger aliceConnected aliceAddress [5, 3, 9] sampleBet
    (by decide) (by decide) (by decide) rfl (fun _ _ => rfl)

/-! ## Wagers -/

theorem validation_rejects (message : String) (s : AppState) :
    (showNotification message .error s).notifications
        = s.notifications ++ [⟨.text message, .error⟩] ∧
      (showNotification message .error s).calls = s.calls ∧
      (showNotification message .error s).pending = s.pending ∧
      (showNotification message .error s).signer = s.signer ∧
      (showNotification message .error s).contract = s.contract ∧
      (showNotification message .error s).userAddress = s.userAddress ∧
      (showNotification message .error s).coinPrediction = s.coinPrediction ∧
      (showNotification message .error s).dicePrediction = s.dicePrediction ∧
      (showNotification message .error s).userBets = s.userBets :=
  ⟨rfl, rfl, rfl, rfl, rfl, rfl, rfl, rfl, rfl⟩

/-- When one of its guards fails `placeCoinBet` returns from a guard. -/
theorem placeCoinBet_guard (X : Externals) (s : AppState) (h : passesCoinGuards X s = false) :
    RejectedByGuard s (placeCoinBet X s) := by
  unfold RejectedByGuard validationMessages
  unfold passesCoinGuards AppState.connected at h
  cases h1 : truthy s.CONTRACT_ADDRESS with
  | false =>
    exact ⟨"Please set contract address first!", by simp, by simp [placeCoinBet, h1]⟩
  | true =>
    cases hc : s.contract with
    | none =>
      exact ⟨"Please connect your wallet first!", by simp, by simp [placeCoinBet, h1, hc]⟩
    | some c =>
      cases h2 : truthy s.userAddress with
      | false =>
        exact ⟨"Please connect your wallet first!", by simp,
          by simp [placeCoinBet, h1, hc, h2]⟩
      | true =>
        cases hp : s.coinPrediction with
        | none =>
          exact ⟨"Please select heads or tails!", by simp, by simp [placeCoinBet, h1, hc, h2, hp]⟩
        | some prediction =>
          have h3 : s.coinBetAmount = "" ∨ (X.parseFloat s.coinBetAmount).leZero = true := by
            by_contra hn
            have h4 : s.coinBetAmount ≠ "" := fun e => hn (Or.inl e)
            have h5 : (X.parseFloat s.coinBetAmount).leZero = false := by
              cases e : (X.parseFloat s.coinBetAmount).leZero with
              | true => exact absurd (Or.inr e) hn
              | false => rfl
            simp [h1, hc, h2, hp, h4, h5] at h
          exact ⟨"Please enter a valid bet amount!", by simp,
            by simp [placeCoinBet, h1, hc, h2, hp, h3]⟩

/-- When one of its guards fails `placeDiceBet` returns from a guard. -/
theorem placeDiceBet_guard (X : Externals) (s : AppState) (h : passesDiceGuards X s = false) :
    RejectedByGuard s (placeDiceBet X s) := by
  unfold RejectedByGuard validationMessages
  unfold passesDiceGuards AppState.connected at h
  cases h1 : truthy s.CONTRACT_ADDRESS with
  | false =>
    exact ⟨"Please set contract address first!", by simp, by simp [placeDiceBet, h1]⟩
  | true =>
    cases hc : s.contract with
    | none =>
      exact ⟨"Please connect your wallet first!", by simp, by simp [placeDiceBet, h1, hc]⟩
    | some c =>
      cases h2 : truthy s.userAddress with
      | false =>
        exact ⟨"Please connect your wallet first!", by simp,
          by simp [placeDiceBet, h1, hc, h2]⟩
      | true =>
        cases hp : s.dicePrediction with
        | none =>
          exact ⟨"Please select a number (1-6)!", by simp, by simp [placeDiceBet, h1, hc, h2, hp]⟩
        | some prediction =>
          have h3 : s.diceBetAmount = "" ∨ (X.parseFloat s.diceBetAmount).leZero = true := by
            by_contra hn
            have h4 : s.diceBetAmount ≠ "" := fun e => hn (Or.inl e)
            have h5 : (X.parseFloat s.diceBetAmount).leZero = false := by
              cases e : (X.parseFloat s.diceBetAmount).leZero with
              | true => exact absurd (Or.inr e) hn
              | false => rfl
            simp [h1, hc, h2, hp, h4, h5] at h
          exact ⟨"Please enter a valid bet amount!", by simp,
            by simp [placeDiceBet, h1, hc, h2, hp, h3]⟩

/-- When all its guards pass `placeCoinBet` marks the button and either issues one
wager transaction or, when `ethers.parseEther` throws, runs its `catch` block. -/
theorem placeCoinBet_pass (X : Externals) (s : AppState) (h : passesCoinGuards X s = true) :
    ∃ c prediction, s.contract = some c ∧ s.coinPrediction = some prediction ∧
      placeCoinBet X s =
        match X.parseEther s.coinBetAmount with
        | none => placeCoinBetCatch { s with placeCoinBetBtn := coinButtonBusy }
        | some value =>
          issue (.placeCoinBet c prediction value) .placeCoinBetSubmit
            { s with placeCoinBetBtn := coinButtonBusy } := by
  unfold passesCoinGuards AppState.connected at h
  simp only [Bool.and_eq_true, Bool.not_eq_true', beq_eq_false_iff_ne, ne_eq] at h
  obtain ⟨⟨⟨⟨h1, hc, h2⟩, hp⟩, h4⟩, h5⟩ := h
  obtain ⟨c, hc⟩ := Option.isSome_iff_exists.1 hc
  obtain ⟨prediction, hp⟩ := Option.isSome_iff_exists.1 hp
  refine ⟨c, prediction, hc, hp, ?_⟩
  simp [placeCoinBet, h1, hc, h2, hp, h4, h5]

/-- When all its guards pass `placeDiceBet` marks the button and either issues one
wager transaction or, when `ethers.parseEther` throws, runs its `catch` block. -/
theorem placeDiceBet_pass (X : Externals) (s : AppState) (h : passesDiceGuards X s = true) :
    ∃ c prediction, s.contract = some c ∧ s.dicePrediction = some prediction ∧
      placeDiceBet X s =
        match X.parseEther s.diceBetAmount with
        | none => placeDiceBetCatch { s with placeDiceBetBtn := diceButtonBusy }
        | some value =>
          issue (.placeDiceBet c prediction value) .placeDiceBetSubmit
            { s with placeDiceBetBtn := diceButtonBusy } := by
  unfold passesDiceGuards AppState.connected at h
  simp only [Bool.and_eq_true, Bool.not_eq_true', beq_eq_false_iff_ne, ne_eq] at h
  obtain ⟨⟨⟨⟨h1, hc, h2⟩, hp⟩, h4⟩, h5⟩ := h
  obtain ⟨c, hc⟩ := Option.isSome_iff_exists.1 hc
  obtain ⟨prediction, hp⟩ := Option.isSome_iff_exists.1 hp
  refine ⟨c, prediction, hc, hp, ?_⟩
  simp [placeDiceBet, h1, hc, h2, hp, h4, h5]

/-- C4: with the prediction unset, `placeCoinBet` and `placeDiceBet` show one of the
validation messages as an error, issue no network operation and leave the
session, the predictions and the bet cache as they were. -/
theorem placeBet_without_prediction (X : Externals) (s : AppState) :
    (s.coinPrediction = none →
      (∃ message ∈ validationMessages,
        (placeCoinBet X s).notifications = s.notifications ++ [⟨.text message, .error⟩]) ∧
      (placeCoinBet X s).calls = s.calls ∧ (placeCoinBet X s).pending = s.pending ∧
      (placeCoinBet X s).signer = s.signer ∧ (placeCoinBet X s).contract = s.contract ∧
      (placeCoinBet X s).userAddress = s.userAddress ∧
      (placeCoinBet X s).coinPrediction = s.coinPrediction ∧
      (placeCoinBet X s).userBets = s.userBets) ∧
    (s.dicePrediction = none →
      (∃ message ∈ validationMessages,
        (placeDiceBet X s).notifications = s.notifications ++ [⟨.text message, .error⟩]) ∧
      (placeDiceBet X s).calls = s.calls ∧ (placeDiceBet X s).pending = s.pending ∧
      (placeDiceBet X s).signer = s.signer ∧ (placeDiceBet X s).contract = s.contract ∧
      (placeDiceBet X s).userAddress = s.userAddress ∧
      (placeDiceBet X s).dicePrediction = s.dicePrediction ∧
      (placeDiceBet X s).userBets = s.userBets) := by
  constructor
  · intro h
    have hg : passesCoinGuards X s = false := by simp [passesCoinGuards, h]
    obtain ⟨message, hm, heq⟩ := placeCoinBet_guard X s hg
    rw [heq]
    exact ⟨⟨message, hm, rfl⟩, rfl, rfl, rfl, rfl, rfl, rfl, rfl⟩
  · intro h
    have hg : passesDiceGuards X s = false := by simp [passesDiceGuards, h]
    obtain ⟨message, hm, heq⟩ := placeDiceBet_guard X s hg
    rw [heq]
    exact ⟨⟨message, hm, rfl⟩, rfl, rfl, rfl, rfl, rfl, rfl, rfl⟩

/-- The claim C4 applied to the Connected session of Alice, who has chosen nothing. -/
theorem placeBet_without_prediction_witness :
    (placeCoinBet browser aliceConnected).calls = aliceConnected.calls ∧
      (placeDiceBet browser aliceConnected).calls = aliceConnected.calls :=
  ⟨((placeBet_without_prediction browser aliceConnected).1 (by decide)).2.1,
    ((placeBet_without_prediction browser aliceConnected).2 (by decide)).2.1⟩

/-- The part of C5 that the code keeps: when the session is not Connected, or the
stake is empty, zero or negative, the method returns from a guard. -/
theorem placeBet_violation_rejected (X : Externals) (s : AppState) :
    ((s.connected = false ∨ s.coinBetAmount = "" ∨
        (X.parseFloat s.coinBetAmount).leZero = true) →
      RejectedByGuard s (placeCoinBet X s)) ∧
    ((s.connected = false ∨ s.diceBetAmount = "" ∨
        (X.parseFloat s.diceBetAmount).leZero = true) →
      RejectedByGuard s (placeDiceBet X s)) := by
  constructor
  · intro h
    apply placeCoinBet_guard
    rcases h with h | h | h <;> simp [passesCoinGuards, h]
  · intro h
    apply placeDiceBet_guard
    rcases h with h | h | h <;> simp [passesDiceGuards, h]

/-- C5 at a stake that is not a number: for the stake "abc" `parseFloat` returns
`NaN`, the test `parseFloat(amount) <= 0` is false and all guards pass; the
method marks the control and goes on to the submission, where `ethers.parseEther`
throws.  No operation is issued, and what is shown is the failure message of the
submission, which is none of the validation messages. -/
theorem placeCoinBet_nan_stake_passes_guards :
    browser.parseFloat aliceTypedLetters.coinBetAmount = .nan ∧
    passesCoinGuards browser aliceTypedLetters = true ∧
    placeCoinBet browser aliceTypedLetters
      = placeCoinBetCatch { aliceTypedLetters with placeCoinBetBtn := coinButtonBusy } ∧
    (placeCoinBet browser aliceTypedLetters).notifications
      = aliceTypedLetters.notifications
        ++ [⟨.text "Error placing bet. Please try again.", .error⟩] ∧
    "Error placing bet. Please try again." ∉ validationMessages ∧
    (placeCoinBet browser aliceTypedLetters).calls = aliceTypedLetters.calls := by
  decide

/-! ## The concrete states are reachable -/

theorem freshPage_reachable : Reachable browser freshPage :=
  Reachable.start _ (by unfold AppState.IsInitial; decide)

theorem pageWithInput_reachable : Reachable browser pageWithInput :=
  Reachable.step _ _ (Reachable.step _ _ freshPage_reachable (Step.init freshPage))
    (Step.typeContractAddress contractAddress (init browser freshPage))

theorem pageConfigured_reachable : Reachable browser pageConfigured :=
  Reachable.step _ _
    (Reachable.step _ _ pageWithInput_reachable (Step.updateConfig pageWithInput))
    (Step.settle .checkConnectionAccounts (.ok []) pageConfiguring (by decide))

theorem aliceGranted_reachable : Reachable browser aliceGranted :=
  Reachable.step _ _
    (Reachable.step _ _ pageConfigured_reachable (Step.connectWallet pageConfigured))
    (Step.settle .connectWalletAccounts (.ok [aliceAddress]) aliceRequested (by decide))

theorem aliceBound_reachable : Reachable browser aliceBound :=
  Reachable.step _ _ aliceGranted_reachable
    (Step.settle .connectWalletSigner (.ok ⟨aliceAddress⟩) aliceGranted (by decide))

theorem aliceStats_reachable : Reachable browser aliceStats :=
  Reachable.step _ _
    (Reachable.step _ _
      (Reachable.step _ _ aliceBound_reachable
        (Step.settle .updateWalletInfoBalance (.ok 1000000000000000000) aliceBound (by decide)))
      (Step.settle .loadGameStatsNextBetId (.ok 3) aliceBalance (by decide)))
    (Step.settle (.loadGameStatsBalance 3) (.ok 5000000000000000000) aliceCounter (by decide))

theorem aliceConnected_reachable : Reachable browser aliceConnected :=
  Reachable.step _ _ aliceStats_reachable
    (Step.settle .loadUserBetsIds (.ok []) aliceStats (by decide))

theorem aliceReady_reachable : Reachable browser aliceReady :=
  Reachable.step _ _
    (Reachable.step _ _ aliceConnected_reachable (Step.selectCoin "0" aliceConnected))
    (Step.typeCoinAmount "0.5" (selectCoin "0" aliceConnected))

theorem aliceSubmitted_reachable : Reachable browser aliceSubmitted :=
  Reachable.step _ _ aliceReady_reachable (Step.placeCoinBet aliceReady)

theorem aliceClearedStake_reachable : Reachable browser aliceClearedStake :=
  Reachable.step _ _ aliceSubmitted_reachable (Step.typeCoinAmount "" aliceSubmitted)

/-! ## The bet control -/

theorem append_singleton_ne_self (l : List Pending) (p : Pending) : l ≠ l ++ [p] := by
  intro h
  have hl := congrArg List.length h
  simp at hl

/-- C6 (as amended): a run of `placeCoinBet` or `placeDiceBet` that gets past the
guards ends with the bet control enabled, whether `ethers.parseEther` throws, the
submission fails, the confirmation wait fails or the bet is confirmed; a run that
a guard rejects leaves the control as it found it. -/
theorem placeBet_control_after_run (X : Externals) (submit : Except String Tx)
    (wait : Except String Unit) (s : AppState) :
    (passesCoinGuards X s = true →
      (placeCoinBetRun X submit wait s).placeCoinBetBtn = coinButtonIdle) ∧
    (passesCoinGuards X s = false →
      (placeCoinBetRun X submit wait s).placeCoinBetBtn = s.placeCoinBetBtn) ∧
    (passesDiceGuards X s = true →
      (placeDiceBetRun X submit wait s).placeDiceBetBtn = diceButtonIdle) ∧
    (passesDiceGuards X s = false →
      (placeDiceBetRun X submit wait s).placeDiceBetBtn = s.placeDiceBetBtn) := by
  refine ⟨?_, ?_, ?_, ?_⟩
  · intro h
    obtain ⟨c, prediction, _, _, heq⟩ := placeCoinBet_pass X s h
    unfold placeCoinBetRun
    rw [heq]
    cases X.parseEther s.coinBetAmount with
    | none =>
      have hp : (placeCoinBetCatch { s with placeCoinBetBtn := coinButtonBusy }).pending
          ≠ s.pending ++ [.placeCoinBetSubmit] := append_singleton_ne_self _ _
      simp only [if_neg hp]
      rfl
    | some value =>
      have hp : (issue (.placeCoinBet c prediction value) .placeCoinBetSubmit
          { s with placeCoinBetBtn := coinButtonBusy }).pending
          = s.pending ++ [.placeCoinBetSubmit] := rfl
      simp only [if_pos hp]
      cases submit with
      | error e => rfl
      | ok tx => cases wait with
        | error e => rfl
        | ok u => rfl
  · intro h
    obtain ⟨message, _, heq⟩ := placeCoinBet_guard X s h
    unfold placeCoinBetRun
    rw [heq]
    have hp : (showNotification message .error s).pending ≠ s.pending ++ [.placeCoinBetSubmit] :=
      append_singleton_ne_self _ _
    rw [if_neg hp]
    rfl
  · intro h
    obtain ⟨c, prediction, _, _, heq⟩ := placeDiceBet_pass X s h
    unfold placeDiceBetRun
    rw [heq]
    cases X.parseEther s.diceBetAmount with
    | none =>
      have hp : (placeDiceBetCatch { s with placeDiceBetBtn := diceButtonBusy }).pending
          ≠ s.pending ++ [.placeDiceBetSubmit] := append_singleton_ne_self _ _
      simp only [if_neg hp]
      rfl
    | some value =>
      have hp : (issue (.placeDiceBet c prediction value) .placeDiceBetSubmit
          { s with placeDiceBetBtn := diceButtonBusy }).pending
          = s.pending ++ [.placeDiceBetSubmit] := rfl
      simp only [if_pos hp]
      cases submit with
      | error e => rfl
      | ok tx => cases wait with
        | error e => rfl
        | ok u => rfl
  · intro h
    obtain ⟨message, _, heq⟩ := placeDiceBet_guard X s h
    unfold placeDiceBetRun
    rw [heq]
    have hp : (showNotification message .error s).pending ≠ s.pending ++ [.placeDiceBetSubmit] :=
      append_singleton_ne_self _ _
    rw [if_neg hp]
    rfl

/-- The claim C6 as amended, applied to the run in which the wager of Alice is
confirmed. -/
theorem placeBet_control_after_run_witness :
    (placeCoinBetRun browser (.ok ⟨7⟩) (.ok ()) aliceReady).placeCoinBetBtn = coinButtonIdle :=
  (placeBet_control_after_run browser (.ok ⟨7⟩) (.ok ()) aliceReady).1 (by decide)

/-- C6 as stated fails: while the wager of Alice is pending and the control is
marked disabled, a second run of `placeCoinBet` that the stake guard rejects
terminates with the control still disabled. -/
theorem placeCoinBet_rejected_run_leaves_control_disabled :
    Reachable browser aliceClearedStake ∧
    aliceClearedStake.placeCoinBetBtn.disabled = true ∧
    placeCoinBetRun browser (.ok ⟨7⟩) (.ok ()) aliceClearedStake
      = showNotification "Please enter a valid bet amount!" .error aliceClearedStake ∧
    (placeCoinBetRun browser (.ok ⟨7⟩) (.ok ()) aliceClearedStake).placeCoinBetBtn.disabled
      = true :=
  ⟨aliceClearedStake_reachable, by decide, by decide, by decide⟩

/-- C7 (as amended): `placeCoinBet` and `placeDiceBet` do not read the disabled mark
of their control.  Every invocation whose guards pass and whose stake
`ethers.parseEther` accepts marks the control disabled and issues exactly one
further wager transaction, also while an earlier submission is pending. -/
theorem placeBet_issues_wager_whenever_guards_pass (X : Externals) (s : AppState) :
    (passesCoinGuards X s = true → ∀ value, X.parseEther s.coinBetAmount = some value →
      ∃ c prediction, s.contract = some c ∧ s.coinPrediction = some prediction ∧
        (placeCoinBet X s).calls = s.calls ++ [.placeCoinBet c prediction value] ∧
        (placeCoinBet X s).pending = s.pending ++ [.placeCoinBetSubmit] ∧
        (placeCoinBet X s).placeCoinBetBtn.disabled = true) ∧
    (passesDiceGuards X s = true → ∀ value, X.parseEther s.diceBetAmount = some value →
      ∃ c prediction, s.contract = some c ∧ s.dicePrediction = some prediction ∧
        (placeDiceBet X s).calls = s.calls ++ [.placeDiceBet c prediction value] ∧
        (placeDiceBet X s).pending = s.pending ++ [.placeDiceBetSubmit] ∧
        (placeDiceBet X s).placeDiceBetBtn.disabled = true) := by
  constructor
  · intro h value hv
    obtain ⟨c, prediction, hc, hp, heq⟩ := placeCoinBet_pass X s h
    rw [hv] at heq
    rw [heq]
    exact ⟨c, prediction, hc, hp, rfl, rfl, rfl⟩
  · intro h value hv
    obtain ⟨c, prediction, hc, hp, heq⟩ := placeDiceBet_pass X s h
    rw [hv] at heq
    rw [heq]
    exact ⟨c, prediction, hc, hp, rfl, rfl, rfl⟩

/-- The claim C7 as amended, applied to the first click of Alice. -/
theorem placeBet_issues_wager_witness :
    ∃ c prediction, aliceReady.contract = some c ∧ aliceReady.coinPrediction = some prediction ∧
      (placeCoinBet browser aliceReady).calls
        = aliceReady.calls ++ [.placeCoinBet c prediction 500000000000000000] ∧
      (placeCoinBet browser aliceReady).pending = aliceReady.pending ++ [.placeCoinBetSubmit] ∧
      (placeCoinBet browser aliceReady).placeCoinBetBtn.disabled = true :=
  (placeBet_issues_wager_whenever_guards_pass browser aliceReady).1 (by decide)
    500000000000000000 (by decide)

/-- C7 as stated fails: while the wager of Alice is pending and her control is
marked disabled, a second invocation of `placeCoinBet` issues a second wager
transaction, and two submissions are in flight. -/
theorem placeCoinBet_second_invocation_submits_again :
    Reachable browser aliceSubmitted ∧
    aliceSubmitted.placeCoinBetBtn.disabled = true ∧
    aliceSubmitted.pending = [.placeCoinBetSubmit] ∧
    (aliceSubmitted.calls.filter Call.isWager).length = 1 ∧
    ((placeCoinBet browser aliceSubmitted).calls.filter Call.isWager).length = 2 ∧
    (placeCoinBet browser aliceSubmitted).pending = [.placeCoinBetSubmit, .placeCoinBetSubmit] :=
  ⟨aliceSubmitted_reachable, by decide, by decide, by decide, by decide, by decide⟩

/-! ## Account changes and disconnect -/

/-- C8 (as amended): on `accountsChanged` with an empty list the account, the signer
and the contract binding are cleared, the bet cache becomes empty, the wallet
address shows "Not Connected" and the wallet balance and the wins show "0"; the
total bets, total payout and contract balance displays are left as they were. -/
theorem accountsChanged_empty (s : AppState) :
    (accountsChanged [] s).userAddress = none ∧ (accountsChanged [] s).signer = none ∧
    (accountsChanged [] s).contract = none ∧ (accountsChanged [] s).userBets = [] ∧
    (accountsChanged [] s).connected = false ∧
    (accountsChanged [] s).walletAddress = .lit "Not Connected" ∧
    (accountsChanged [] s).walletBalance = .lit "0" ∧
    (accountsChanged [] s).yourWins = .lit "0" ∧
    (accountsChanged [] s).totalBets = s.totalBets ∧
    (accountsChanged [] s).totalPayout = s.totalPayout ∧
    (accountsChanged [] s).contractBalance = s.contractBalance :=
  ⟨rfl, rfl, rfl, rfl, rfl, rfl, rfl, rfl, rfl, rfl, rfl⟩

/-- C8 as stated fails: after `accountsChanged` with an empty list in the Connected
session of Alice, the total bets, total payout and contract balance displays
still show the statistics loaded before, not "Not Connected". -/
theorem accountsChanged_empty_keeps_stats :
    Reachable browser aliceConnected ∧ aliceConnected.connected = true ∧
    (accountsChanged [] aliceConnected).totalBets = .number (.num 3) ∧
    (accountsChanged [] aliceConnected).totalPayout = .lit "N/A" ∧
    (accountsChanged [] aliceConnected).contractBalance = .ether4 5000000000000000000 ∧
    (accountsChanged [] aliceConnected).totalBets ≠ .lit "Not Connected" :=
  ⟨aliceConnected_reachable, by decide, by decide, by decide, by decide, by decide⟩

/-- C9 (as amended): in a Connected session with a provider, on `accountsChanged`
with a list whose first account is not the empty string, `userAddress` becomes
that account while the signer and the contract binding stay as they were; the
wallet display is refreshed and the bet history reload is started for the new
account.  Exactly two operations are issued, the balance read and
`getPlayerBets`: no statistics are read. -/
theorem accountsChanged_rebinds (s : AppState) (c : Contract) (account : String)
    (others : List String) (hc : s.contract = some c) (hp : s.provider = true)
    (hne : account ≠ "") :
    (accountsChanged (account :: others) s).userAddress = some account ∧
    (accountsChanged (account :: others) s).signer = s.signer ∧
    (accountsChanged (account :: others) s).contract = s.contract ∧
    (accountsChanged (account :: others) s).calls
      = s.calls ++ [.getBalance (some account), .getPlayerBets c account] ∧
    (accountsChanged (account :: others) s).pending
      = s.pending ++ [.updateWalletInfoBalance, .loadUserBetsIds] ∧
    (accountsChanged (account :: others) s).totalBets = s.totalBets ∧
    (accountsChanged (account :: others) s).totalPayout = s.totalPayout ∧
    (accountsChanged (account :: others) s).contractBalance = s.contractBalance := by
  simp [accountsChanged, updateWalletInfo, loadUserBets, issue, hc, hp, hne]

/-- The claim C9 as amended, applied to the session of Alice when the wallet
switches to the account of Bob. -/
theorem accountsChanged_rebinds_witness :
    (accountsChanged [bobAddress] aliceConnected).userAddress = some bobAddress ∧
    (accountsChanged [bobAddress] aliceConnected).signer = aliceConnected.signer :=
  ⟨(accountsChanged_rebinds aliceConnected ⟨contractAddress, ⟨aliceAddress⟩⟩ bobAddress []
      (by decide) (by decide) (by decide)).1,
    (accountsChanged_rebinds aliceConnected ⟨contractAddress, ⟨aliceAddress⟩⟩ bobAddress []
      (by decide) (by decide) (by decide)).2.1⟩

/-- C9 as stated fails: when the wallet of Alice switches to the account of Bob,
the callback issues the balance read and `getPlayerBets` and nothing else, so no
statistics read (`nextBetId`) is issued; the signer and the contract binding are
still those of Alice. -/
theorem accountsChanged_reads_no_stats :
    Reachable browser aliceConnected ∧ aliceConnected.connected = true ∧
    (accountsChanged [bobAddress] aliceConnected).calls
      = aliceConnected.calls
        ++ [.getBalance (some bobAddress),
            .getPlayerBets ⟨contractAddress, ⟨aliceAddress⟩⟩ bobAddress] ∧
    Pending.loadGameStatsNextBetId ∉ (accountsChanged [bobAddress] aliceConnected).pending ∧
    (accountsChanged [bobAddress] aliceConnected).signer = some ⟨aliceAddress⟩ :=
  ⟨aliceConnected_reachable, by decide, by decide, by decide, by decide⟩

/-- C10: `disconnect` is a total function; from every state it gives a state with no
account, no signer, no contract binding and an empty bet cache, and running it
twice gives the same state as running it once. -/
theorem disconnect_clears_and_idempotent (s : AppState) :
    (disconnect s).userAddress = none ∧ (disconnect s).signer = none ∧
    (disconnect s).contract = none ∧ (disconnect s).userBets = [] ∧
    disconnect (disconnect s) = disconnect s :=
  ⟨rfl, rfl, rfl, rfl, rfl⟩

/-! ## What a reload shows while it runs -/

/-- While the loop of `loadUserBets` runs against a ledger that answers every read,
the cache at the suspension for the `k`-th id holds the entries it had and the
records of the first `k` ids. -/
theorem reloadBetsViews_loop (L : Ledger) (bets : Nat → LedgerBet) (c : Contract) :
    ∀ (betIds : List Nat) (s : AppState), s.contract = some c →
      (∀ betId ∈ betIds, L.getBet betId = .ok (bets betId)) →
      reloadBetsViews L betIds (loadUserBetsLoop betIds s)
        = (List.range betIds.length).map (fun k =>
            s.userBets ++ (betIds.take k).map (fun betId => mkBet betId (bets betId)))
  | [], s, _, _ => by simp [reloadBetsViews]
  | betId :: rest, s, hc, hb => by
    have hget : L.getBet betId = .ok (bets betId) := hb betId (by simp)
    have hstart : loadUserBetsLoop (betId :: rest) s
        = issue (.getBet c betId) (.loadUserBetsBet betId rest) s := by
      simp only [loadUserBetsLoop, hc]
    have hmem : Pending.loadUserBetsBet betId rest
        ∈ (issue (.getBet c betId) (.loadUserBetsBet betId rest) s).pending := by
      simp [issue]
    have hsettle : settle (.loadUserBetsBet betId rest) (.ok (bets betId))
          (issue (.getBet c betId) (.loadUserBetsBet betId rest) s)
        = loadUserBetsLoop rest
          { issue (.getBet c betId) (.loadUserBetsBet betId rest) s with
            pending := (issue (.getBet c betId) (.loadUserBetsBet betId rest) s).pending.erase
              (.loadUserBetsBet betId rest)
            userBets := s.userBets ++ [mkBet betId (bets betId)] } := rfl
    rw [hstart, reloadBetsViews, if_pos hmem, hget]
    dsimp only
    rw [hsettle]
    have ih := reloadBetsViews_loop L bets c rest
      { issue (.getBet c betId) (.loadUserBetsBet betId rest) s with
        pending := (issue (.getBet c betId) (.loadUserBetsBet betId rest) s).pending.erase
          (.loadUserBetsBet betId rest)
        userBets := s.userBets ++ [mkBet betId (bets betId)] }
      hc (fun x hx => hb x (by simp [hx]))
    rw [ih, List.length_cons, List.range_succ_eq_map, List.map_cons, List.map_map]
    simp [issue, Function.comp_def]

/-- When a read `getBet` fails after the reads for the ids before it succeeded, the
reload ends with the records of those ids in the cache, in the order fetched. -/
theorem reloadBets_fails (L : Ledger) (bets : Nat → LedgerBet) (c : Contract)
    (failing : Nat) (after : List Nat) (e : String) (hfail : L.getBet failing = .error e) :
    ∀ (before : List Nat) (s : AppState), s.contract = some c →
      (∀ betId ∈ before, L.getBet betId = .ok (bets betId)) →
      (reloadBets L (before ++ failing :: after)
          (loadUserBetsLoop (before ++ failing :: after) s)).userBets
        = s.userBets ++ before.map (fun betId => mkBet betId (bets betId))
  | [], s, hc, _ => by
    have hstart : loadUserBetsLoop (failing :: after) s
        = issue (.getBet c failing) (.loadUserBetsBet failing after) s := by
      simp only [loadUserBetsLoop, hc]
    have hmem : Pending.loadUserBetsBet failing after
        ∈ (issue (.getBet c failing) (.loadUserBetsBet failing after) s).pending := by
      simp [issue]
    rw [List.nil_append, hstart, reloadBets, if_pos hmem, hfail]
    simp [settle, resume, loadUserBetsOnBet, issue]
  | betId :: rest, s, hc, hb => by
    have hget : L.getBet betId = .ok (bets betId) := hb betId (by simp)
    have hstart : loadUserBetsLoop (betId :: (rest ++ failing :: after)) s
        = issue (.getBet c betId) (.loadUserBetsBet betId (rest ++ failing :: after)) s := by
      simp only [loadUserBetsLoop, hc]
    have hmem : Pending.loadUserBetsBet betId (rest ++ failing :: after)
        ∈ (issue (.getBet c betId)
            (.loadUserBetsBet betId (rest ++ failing :: after)) s).pending := by
      simp [issue]
    have hsettle : settle (.loadUserBetsBet betId (rest ++ failing :: after)) (.ok (bets betId))
          (issue (.getBet c betId) (.loadUserBetsBet betId (rest ++ failing :: after)) s)
        = loadUserBetsLoop (rest ++ failing :: after)
          { issue (.getBet c betId) (.loadUserBetsBet betId (rest ++ failing :: after)) s with
            pending := (issue (.getBet c betId)
              (.loadUserBetsBet betId (rest ++ failing :: after)) s).pending.erase
              (.loadUserBetsBet betId (rest ++ failing :: after))
            userBets := s.userBets ++ [mkBet betId (bets betId)] } := rfl
    rw [List.cons_append, hstart, reloadBets, if_pos hmem, hget]
    dsimp only
    rw [hsettle]
    have ih := reloadBets_fails L bets c failing after e hfail rest
      { issue (.getBet c betId) (.loadUserBetsBet betId (rest ++ failing :: after)) s with
        pending := (issue (.getBet c betId)
          (.loadUserBetsBet betId (rest ++ failing :: after)) s).pending.erase
          (.loadUserBetsBet betId (rest ++ failing :: after))
        userBets := s.userBets ++ [mkBet betId (bets betId)] }
      hc (fun x hx => hb x (by simp [hx]))
    rw [ih]
    simp

/-- C12 (as amended): during a reload with nothing else running between its awaits,
against a ledger that answers the id list, the cache is the old set only while
`getPlayerBets` is awaited.  It is emptied when
the ids arrive, and while `getBet` is awaited for the `k`-th id it holds the
records of the first `k` ids, so readers see the empty and the partly filled
cache.  If a read `getBet` fails part-way, the reload ends with the records
fetched so far in the cache. -/
theorem reload_views_are_prefixes (L : Ledger) (s : AppState) (account : String)
    (bets : Nat → LedgerBet) (hcontract : s.contract.isSome = true)
    (haccount : s.userAddress = some account) (hne : account ≠ "") :
    (∀ betIds : List Nat, L.getPlayerBets account = .ok betIds →
      (∀ betId ∈ betIds, L.getBet betId = .ok (bets betId)) →
      reloadViews L s = s.userBets ::
        (List.range betIds.length).map (fun k =>
          (betIds.take k).map (fun betId => mkBet betId (bets betId)))) ∧
    (∀ (before : List Nat) (failing : Nat) (after : List Nat) (e : String),
      L.getPlayerBets account = .ok (before ++ failing :: after) →
      (∀ betId ∈ before, L.getBet betId = .ok (bets betId)) →
      L.getBet failing = .error e →
      (reload L s).userBets = before.map (fun betId => mkBet betId (bets betId))) := by
  obtain ⟨c, hc⟩ := Option.isSome_iff_exists.1 hcontract
  constructor
  · intro betIds hids hbets
    rw [(reload_unfold L s c account betIds hc haccount hne hids).2.2]
    have h := reloadBetsViews_loop L bets c betIds
      { issue (.getPlayerBets c account) .loadUserBetsIds s with
        pending := (issue (.getPlayerBets c account) .loadUserBetsIds s).pending.erase
          .loadUserBetsIds
        userBets := [] } hc hbets
    rw [h]
    simp
  · intro before failing after e hids hbets hfail
    rw [(reload_unfold L s c account _ hc haccount hne hids).2.1]
    have h := reloadBets_fails L bets c failing after e hfail before
      { issue (.getPlayerBets c account) .loadUserBetsIds s with
        pending := (issue (.getPlayerBets c account) .loadUserBetsIds s).pending.erase
          .loadUserBetsIds
        userBets := [] } hc hbets
    rw [h]
    simp

/-- The claim C12 as amended, applied to a second reload of the bets of Alice. -/
theorem reload_views_are_prefixes_witness :
    reloadViews sampleLedger aliceLoaded = aliceLoaded.userBets ::
      (List.range [5, 3, 9].length).map (fun k =>
        ([5, 3, 9].take k).map (fun betId => mkBet betId (sampleBet betId))) :=
  (reload_views_are_prefixes sampleLedger aliceLoaded aliceAddress sampleBet
    (by decide) (by decide) (by decide)).1 [5, 3, 9] rfl (fun _ _ => rfl)

/-- C12 as stated fails: with three bets cached, a second reload shows the empty
cache and then caches of one and two entries at its suspension points, and a
reload in which the read of bet 3 fails ends with one entry in the cache. -/
theorem reload_shows_partial_cache :
    aliceLoaded.userBets.map (fun b => b.id) = ["9", "5", "3"] ∧
    (reloadViews sampleLedger aliceLoaded).map (fun view => view.map (fun b => b.id))
      = [["9", "5", "3"], [], ["5"], ["5", "3"]] ∧
    ((reload flakyLedger aliceLoaded).userBets.map (fun b => b.id)) = ["5"] := by
  decide

/-! ## Overlapping reloads -/

theorem toString_nat_injective (m n : Nat) (h : toString m = toString n) : m = n := by
  have hm := decimalValue_toString m
  rw [h, decimalValue_toString] at hm
  exact hm.symm

/-- C13 (as amended): after a reload that runs with no other reload in flight,
against a ledger that returns pairwise distinct ids, the cached ids are pairwise
distinct. -/
theorem reload_alone_keeps_ids_distinct (L : Ledger) (s : AppState) (account : String)
    (betIds : List Nat) (bets : Nat → LedgerBet)
    (hcontract : s.contract.isSome = true) (haccount : s.userAddress = some account)
    (hne : account ≠ "") (hids : L.getPlayerBets account = .ok betIds)
    (hbets : ∀ betId ∈ betIds, L.getBet betId = .ok (bets betId))
    (hdistinct : betIds.Nodup) :
    ((reload L s).userBets.map (fun b => b.id)).Nodup := by
  have hperm := reload_userBets_perm L s account betIds bets hcontract haccount hne hids hbets
  rw [(hperm.map (fun b => b.id)).nodup_iff, List.map_map]
  exact hdistinct.map (fun m n h => toString_nat_injective m n h)

/-- The claim C13 as amended, applied to a reload of the bets of Alice. -/
theorem reload_alone_keeps_ids_distinct_witness :
    ((reload sampleLedger aliceConnected).userBets.map (fun b => b.id)).Nodup :=
  reload_alone_keeps_ids_distinct sampleLedger aliceConnected aliceAddress [5, 3, 9] sampleBet
    (by decide) (by decide) (by decide) rfl (fun _ _ => rfl) (by decide)

/-- The state in which two overlapping reloads have both run to their end is
reachable: the refresh after the confirmation of a wager and the refresh
scheduled by the `BetResolved` callback are in flight together, and every read
succeeds. -/
theorem twoReloadsDone_reachable : Reachable browser twoReloadsDone := by
  have h0 : Reachable browser aliceConfirmed :=
    Reachable.step _ _
      (Reachable.step _ _ aliceSubmitted_reachable
        (Step.settle .placeCoinBetSubmit (.ok ⟨7⟩) aliceSubmitted (by decide)))
      (Step.settle .placeCoinBetWait (.ok ()) _ (by decide))
  have h1 : Reachable browser aliceNotified :=
    Reachable.step _ _ h0
      (Step.betResolved ⟨contractAddress, ⟨aliceAddress⟩⟩ 1 aliceAddress 0 false 0
        aliceConfirmed aliceNotified (by decide) rfl)
  have h2 : Reachable browser twoReloads :=
    Reachable.step _ _ h1 (Step.refreshTimer aliceNotified (by decide))
  have h3 := Reachable.step _ _ h2 (Step.settle .loadUserBetsIds (.ok [1]) twoReloads (by decide))
  have h4 := Reachable.step _ _ h3 (Step.settle .loadUserBetsIds (.ok [1]) _ (by decide))
  have h5 := Reachable.step _ _ h4
    (Step.settle (.loadUserBetsBet 1 []) (.ok (sampleBet 1)) _ (by decide))
  exact Reachable.step _ _ h5
    (Step.settle (.loadUserBetsBet 1 []) (.ok (sampleBet 1)) _ (by decide))

/-- C13 as stated fails: the refresh after the confirmation of a wager and the
refresh scheduled by the `BetResolved` callback are in flight together; both
reloads empty the cache on receiving the id list and both push the record of
bet 1, and the cache ends with the id 1 twice. -/
theorem overlapping_reloads_duplicate_ids :
    Reachable browser twoReloadsDone ∧
    twoReloads.pending.count .loadUserBetsIds = 2 ∧
    twoReloadsDone.userBets.map (fun b => b.id) = ["1", "1"] ∧
    ¬ (twoReloadsDone.userBets.map (fun b => b.id)).Nodup :=
  ⟨twoReloadsDone_reachable, by decide, by decide, by decide⟩

/-- C1 as stated fails: two runs of `loadUserBets` overlap, `getPlayerBets` returns
the one id 1 to both and `getBet(1)` succeeds for both; when both runs have
completed, with no continuation of a reload left waiting, the cache holds two
records for the one returned id, which is no permutation of the mapped id
list. -/
theorem overlapping_reloads_not_replaced :
    Reachable browser twoReloadsDone ∧
    Pending.loadUserBetsIds ∉ twoReloadsDone.pending ∧
    Pending.loadUserBetsBet 1 [] ∉ twoReloadsDone.pending ∧
    twoReloadsDone.userBets = [mkBet 1 (sampleBet 1), mkBet 1 (sampleBet 1)] ∧
    twoReloadsDone.userBets.length ≠ [1].length ∧
    ¬ twoReloadsDone.userBets.Perm ([1].map (fun betId => mkBet betId (sampleBet betId))) :=
  ⟨twoReloadsDone_reachable, by decide, by decide, by decide, by decide,
    fun h => absurd h.length_eq (by decide)⟩

/-! ## Statistics -/

/-- C14 (as amended): `loadGameStats` is a total function.  With a contract binding,
a contract address and a provider, the three displays are written together:
when both reads succeed the contract balance and the total bets (from
`nextBetId`) are shown and the total payout shows "N/A"; when either read fails
all three show "Error" and an error notification is shown.  In `main.js` a
failure of any of the three reads leaves all three displays as they were. -/
theorem loadGameStats_all_or_nothing (s : AppState) (c : Contract)
    (hc : s.contract = some c) (ha : truthy s.CONTRACT_ADDRESS = true)
    (hp : s.provider = true) :
    (∀ nextBetId balance,
      (loadGameStatsRun (.ok nextBetId) (.ok balance) s).totalBets
          = .number (mathMax0 (toNumber (nextBetId : Int))) ∧
      (loadGameStatsRun (.ok nextBetId) (.ok balance) s).totalPayout = .lit "N/A" ∧
      (loadGameStatsRun (.ok nextBetId) (.ok balance) s).contractBalance = .ether4 balance) ∧
    (∀ nextBetId e,
      (loadGameStatsRun (.ok nextBetId) (.error e) s).totalBets = .lit "Error" ∧
      (loadGameStatsRun (.ok nextBetId) (.error e) s).totalPayout = .lit "Error" ∧
      (loadGameStatsRun (.ok nextBetId) (.error e) s).contractBalance = .lit "Error" ∧
      (loadGameStatsRun (.ok nextBetId) (.error e) s).notifications
        = s.notifications ++ [⟨.text ("Failed to load stats: " ++ e), .error⟩]) ∧
    (∀ e balance,
      (loadGameStatsRun (.error e) balance s).totalBets = .lit "Error" ∧
      (loadGameStatsRun (.error e) balance s).totalPayout = .lit "Error" ∧
      (loadGameStatsRun (.error e) balance s).contractBalance = .lit "Error" ∧
      (loadGameStatsRun (.error e) balance s).notifications
        = s.notifications ++ [⟨.text ("Failed to load stats: " ++ e), .error⟩]) ∧
    (∀ totalBets totalPayout contractBalance e,
      (totalBets = .error e ∨ totalPayout = .error e ∨ contractBalance = .error e) →
      loadGameStatsMain totalBets totalPayout contractBalance s = s) := by
  have hstart : loadGameStats s = issue (.nextBetId c) .loadGameStatsNextBetId s := by
    simp only [loadGameStats, hc, ha, if_true]
  have hpend : (issue (.nextBetId c) .loadGameStatsNextBetId s).pending
      = s.pending ++ [.loadGameStatsNextBetId] := rfl
  have hlen : ((s.pending ++ [Pending.loadGameStatsNextBetId]).erase
      .loadGameStatsNextBetId).length = s.pending.length := by
    rw [List.length_erase_of_mem (by simp)]
    simp
  refine ⟨?_, ?_, ?_, ?_⟩
  · intro nextBetId balance
    unfold loadGameStatsRun
    rw [hstart, if_pos hpend]
    simp [settle, resume, loadGameStatsOnNextBetId, issue, hp, hlen,
      loadGameStatsOnBalance, showNotification]
  · intro nextBetId e
    unfold loadGameStatsRun
    rw [hstart, if_pos hpend]
    simp [settle, resume, loadGameStatsOnNextBetId, issue, hp, hlen,
      loadGameStatsOnBalance, loadGameStatsCatch, showNotification, setStats]
  · intro e balance
    unfold loadGameStatsRun
    rw [hstart, if_pos hpend]
    simp [settle, resume, loadGameStatsOnNextBetId, issue, loadGameStatsCatch,
      showNotification, setStats]
  · intro totalBets totalPayout contractBalance e h
    unfold loadGameStatsMain
    rw [hc]
    rcases h with h | h | h <;> subst h
    · rfl
    · cases totalBets <;> rfl
    · cases totalBets <;> cases totalPayout <;> rfl

/-- The claim C14 as amended, applied to the Connected session of Alice. -/
theorem loadGameStats_all_or_nothing_witness :
    (loadGameStatsRun (.ok 4) (.ok 6000000000000000000) aliceConnected).totalBets
        = .number (mathMax0 (toNumber 4)) ∧
      (loadGameStatsRun (.ok 4) (.ok 6000000000000000000) aliceConnected).totalPayout
        = .lit "N/A" ∧
      (loadGameStatsRun (.ok 4) (.ok 6000000000000000000) aliceConnected).contractBalance
        = .ether4 6000000000000000000 :=
  (loadGameStats_all_or_nothing aliceConnected ⟨contractAddress, ⟨aliceAddress⟩⟩
    (by decide) (by decide) (by decide)).1 4 6000000000000000000

/-- C14 as stated fails: when the read of `nextBetId` succeeds and the read of the
contract balance fails, the total bets display shows "Error" although its own
read succeeded; when both reads succeed the total payout display shows "N/A";
and in `main.js`, when only the read of the total payout fails, the total bets
display does not show the value read. -/
theorem loadGameStats_marks_all_fields :
    (loadGameStatsRun (.ok 4) (.error "network error") aliceConnected).calls
      = aliceConnected.calls
        ++ [.nextBetId ⟨contractAddress, ⟨aliceAddress⟩⟩, .getBalance (some contractAddress)] ∧
    (loadGameStatsRun (.ok 4) (.error "network error") aliceConnected).totalBets
      = .lit "Error" ∧
    (loadGameStatsRun (.ok 4) (.error "network error") aliceConnected).totalPayout
      = .lit "Error" ∧
    (loadGameStatsRun (.ok 4) (.ok 6000000000000000000) aliceConnected).totalPayout
      = .lit "N/A" ∧
    (loadGameStatsMain (.ok 4) (.error "network error") (.ok 6000000000000000000)
        aliceConnected).totalBets = aliceConnected.totalBets ∧
    aliceConnected.totalBets ≠ .lit (toString 4) := by
  decide


/-! ## Turns that leave the session alone -/

theorem keeps_refl (s : AppState) : Keeps s s :=
  ⟨rfl, rfl, rfl, rfl, rfl, fun _ hp _ => hp⟩

theorem keeps_trans {s t u : AppState} (h1 : Keeps s t) (h2 : Keeps t u) : Keeps s u :=
  ⟨h2.1.trans h1.1, h2.2.1.trans h1.2.1, h2.2.2.1.trans h1.2.2.1,
    h2.2.2.2.1.trans h1.2.2.2.1, h2.2.2.2.2.1.trans h1.2.2.2.2.1,
    fun p hp hc => h1.2.2.2.2.2 p (h2.2.2.2.2.2 p hp hc) hc⟩

theorem keeps_showNotification (message : String) (kind : Severity) (s : AppState) :
    Keeps s (showNotification message kind s) :=
  ⟨rfl, rfl, rfl, rfl, rfl, fun _ hp _ => hp⟩

theorem keeps_issue (c : Call) (p : Pending) (s : AppState) (h : p.isConnect = false) :
    Keeps s (issue c p s) := by
  refine ⟨rfl, rfl, rfl, rfl, rfl, ?_⟩
  intro q hq hc
  rcases List.mem_append.1 hq with hq | hq
  · exact hq
  · rw [List.mem_singleton.1 hq, h] at hc
    exact absurd hc (by decide)

theorem keeps_erase (p : Pending) (s : AppState) :
    Keeps s { s with pending := s.pending.erase p } :=
  ⟨rfl, rfl, rfl, rfl, rfl, fun _ hq _ => List.mem_of_mem_erase hq⟩

theorem keeps_updateWalletInfo (s : AppState) : Keeps s (updateWalletInfo s) := by
  unfold updateWalletInfo
  split
  · exact keeps_refl s
  · split
    · exact keeps_refl s
    · dsimp only
      split
      · exact keeps_trans (s := s) ⟨rfl, rfl, rfl, rfl, rfl, fun _ hp _ => hp⟩
          (keeps_issue _ _ _ rfl)
      · exact ⟨rfl, rfl, rfl, rfl, rfl, fun _ hp _ => hp⟩

theorem keeps_updateWalletInfoOnBalance (r : Except String Nat) (s : AppState) :
    Keeps s (updateWalletInfoOnBalance r s) := by
  unfold updateWalletInfoOnBalance
  split <;> exact ⟨rfl, rfl, rfl, rfl, rfl, fun _ hp _ => hp⟩

theorem keeps_loadGameStatsCatch (message : String) (s : AppState) :
    Keeps s (loadGameStatsCatch message s) :=
  ⟨rfl, rfl, rfl, rfl, rfl, fun _ hp _ => hp⟩

theorem keeps_loadGameStats (s : AppState) : Keeps s (loadGameStats s) := by
  unfold loadGameStats
  split
  · exact ⟨rfl, rfl, rfl, rfl, rfl, fun _ hp _ => hp⟩
  · split
    · exact keeps_issue _ _ _ rfl
    · exact ⟨rfl, rfl, rfl, rfl, rfl, fun _ hp _ => hp⟩

theorem keeps_loadGameStatsOnNextBetId (r : Except String Nat) (s : AppState) :
    Keeps s (loadGameStatsOnNextBetId r s) := by
  unfold loadGameStatsOnNextBetId
  split
  · exact keeps_loadGameStatsCatch _ s
  · split
    · exact keeps_issue _ _ _ rfl
    · exact keeps_loadGameStatsCatch _ s

theorem keeps_loadGameStatsOnBalance (n : Nat) (r : Except String Nat) (s : AppState) :
    Keeps s (loadGameStatsOnBalance n r s) := by
  unfold loadGameStatsOnBalance
  split
  · exact keeps_loadGameStatsCatch _ s
  · exact ⟨rfl, rfl, rfl, rfl, rfl, fun _ hp _ => hp⟩

theorem keeps_updateBetHistory (s : AppState) : Keeps s (updateBetHistory s) := by
  unfold updateBetHistory
  split <;> exact ⟨rfl, rfl, rfl, rfl, rfl, fun _ hp _ => hp⟩

theorem keeps_loadUserBetsLoop : ∀ (betIds : List Nat) (s : AppState),
    Keeps s (loadUserBetsLoop betIds s)
  | [], s => keeps_trans (keeps_updateBetHistory s)
      ⟨rfl, rfl, rfl, rfl, rfl, fun _ hp _ => hp⟩
  | betId :: rest, s => by
    cases hc : s.contract with
    | none =>
      have h : loadUserBetsLoop (betId :: rest) s = s := by simp only [loadUserBetsLoop, hc]
      rw [h]
      exact keeps_refl s
    | some c =>
      have h : loadUserBetsLoop (betId :: rest) s
          = issue (.getBet c betId) (.loadUserBetsBet betId rest) s := by
        simp only [loadUserBetsLoop, hc]
      rw [h]
      exact keeps_issue _ _ _ rfl

theorem keeps_loadUserBets (s : AppState) : Keeps s (loadUserBets s) := by
  unfold loadUserBets
  split
  · split
    · exact keeps_refl s
    · exact keeps_issue _ _ _ rfl
  · exact keeps_refl s

theorem keeps_loadUserBetsOnIds (r : Except String (List Nat)) (s : AppState) :
    Keeps s (loadUserBetsOnIds r s) := by
  unfold loadUserBetsOnIds
  split
  · exact keeps_refl s
  · exact keeps_trans (s := s) ⟨rfl, rfl, rfl, rfl, rfl, fun _ hp _ => hp⟩
      (keeps_loadUserBetsLoop _ _)

theorem keeps_loadUserBetsOnBet (betId : Nat) (rest : List Nat) (r : Except String LedgerBet)
    (s : AppState) : Keeps s (loadUserBetsOnBet betId rest r s) := by
  unfold loadUserBetsOnBet
  split
  · exact keeps_refl s
  · exact keeps_trans (s := s) ⟨rfl, rfl, rfl, rfl, rfl, fun _ hp _ => hp⟩
      (keeps_loadUserBetsLoop _ _)

theorem keeps_refresh (s : AppState) :
    Keeps s (updateWalletInfo (loadUserBets (loadGameStats s))) :=
  keeps_trans (keeps_trans (keeps_loadGameStats s) (keeps_loadUserBets _))
    (keeps_updateWalletInfo _)

theorem keeps_placeCoinBet (X : Externals) (s : AppState) : Keeps s (placeCoinBet X s) := by
  cases h : passesCoinGuards X s with
  | false =>
    obtain ⟨message, _, heq⟩ := placeCoinBet_guard X s h
    rw [heq]
    exact keeps_showNotification _ _ s
  | true =>
    obtain ⟨c, prediction, _, _, heq⟩ := placeCoinBet_pass X s h
    rw [heq]
    split
    · exact ⟨rfl, rfl, rfl, rfl, rfl, fun _ hp _ => hp⟩
    · exact keeps_trans (s := s) ⟨rfl, rfl, rfl, rfl, rfl, fun _ hp _ => hp⟩
        (keeps_issue _ _ _ rfl)

theorem keeps_placeDiceBet (X : Externals) (s : AppState) : Keeps s (placeDiceBet X s) := by
  cases h : passesDiceGuards X s with
  | false =>
    obtain ⟨message, _, heq⟩ := placeDiceBet_guard X s h
    rw [heq]
    exact keeps_showNotification _ _ s
  | true =>
    obtain ⟨c, prediction, _, _, heq⟩ := placeDiceBet_pass X s h
    rw [heq]
    split
    · exact ⟨rfl, rfl, rfl, rfl, rfl, fun _ hp _ => hp⟩
    · exact keeps_trans (s := s) ⟨rfl, rfl, rfl, rfl, rfl, fun _ hp _ => hp⟩
        (keeps_issue _ _ _ rfl)

theorem keeps_placeCoinBetOnSubmit (r : Except String Tx) (s : AppState) :
    Keeps s (placeCoinBetOnSubmit r s) := by
  unfold placeCoinBetOnSubmit
  split
  · exact ⟨rfl, rfl, rfl, rfl, rfl, fun _ hp _ => hp⟩
  · exact keeps_trans (keeps_showNotification _ _ s) (keeps_issue _ _ _ rfl)

theorem keeps_placeDiceBetOnSubmit (r : Except String Tx) (s : AppState) :
    Keeps s (placeDiceBetOnSubmit r s) := by
  unfold placeDiceBetOnSubmit
  split
  · exact ⟨rfl, rfl, rfl, rfl, rfl, fun _ hp _ => hp⟩
  · exact keeps_trans (keeps_showNotification _ _ s) (keeps_issue _ _ _ rfl)

theorem keeps_placeCoinBetOnWait (r : Except String Unit) (s : AppState) :
    Keeps s (placeCoinBetOnWait r s) := by
  unfold placeCoinBetOnWait
  split
  · exact ⟨rfl, rfl, rfl, rfl, rfl, fun _ hp _ => hp⟩
  · dsimp only
    refine keeps_trans (t := updateWalletInfo (loadUserBets (loadGameStats _))) ?_
      ⟨rfl, rfl, rfl, rfl, rfl, fun _ hp _ => hp⟩
    exact keeps_trans (s := s) ⟨rfl, rfl, rfl, rfl, rfl, fun _ hp _ => hp⟩ (keeps_refresh _)

theorem keeps_placeDiceBetOnWait (r : Except String Unit) (s : AppState) :
    Keeps s (placeDiceBetOnWait r s) := by
  unfold placeDiceBetOnWait
  split
  · exact ⟨rfl, rfl, rfl, rfl, rfl, fun _ hp _ => hp⟩
  · dsimp only
    refine keeps_trans (t := updateWalletInfo (loadUserBets (loadGameStats _))) ?_
      ⟨rfl, rfl, rfl, rfl, rfl, fun _ hp _ => hp⟩
    exact keeps_trans (s := s) ⟨rfl, rfl, rfl, rfl, rfl, fun _ hp _ => hp⟩ (keeps_refresh _)

theorem keeps_autoRefresh (s : AppState) : Keeps s (autoRefresh s) := by
  unfold autoRefresh
  split
  · exact keeps_loadGameStats s
  · exact keeps_refl s

theorem keeps_refreshTimer (s : AppState) : Keeps s (refreshTimer s) :=
  keeps_trans (s := s) ⟨rfl, rfl, rfl, rfl, rfl, fun _ hp _ => hp⟩ (keeps_refresh _)

theorem keeps_onBetPlaced (player : String) (s t : AppState)
    (h : onBetPlaced player s = .ok t) : Keeps s t := by
  unfold onBetPlaced at h
  split at h
  · cases h
  · split at h
    · cases h; exact keeps_showNotification _ _ s
    · cases h; exact keeps_refl s

theorem keeps_onBetResolved (betId : Nat) (player : String) (result : Nat) (won : Bool)
    (payout : Nat) (s t : AppState)
    (h : onBetResolved betId player result won payout s = .ok t) : Keeps s t := by
  unfold onBetResolved at h
  split at h
  · cases h
  · split at h
    · cases h
      cases won <;> exact ⟨rfl, rfl, rfl, rfl, rfl, fun _ hp _ => hp⟩
    · cases h; exact keeps_refl s

/-! ## Turns that change the session -/

theorem isSome_of_truthy (o : Option String) (h : truthy o = true) : o.isSome = true := by
  cases o with
  | none => simp [truthy] at h
  | some a => rfl

theorem invariant_of_keeps {s t : AppState} (h : Keeps s t) (hi : SessionInvariant s) :
    SessionInvariant t := by
  obtain ⟨h1, h2, h3, _, _, h6⟩ := h
  refine ⟨by rw [h1, h2]; exact hi.1, ?_⟩
  intro p hp hc
  rw [h3]
  exact hi.2 p (h6 p hp hc) hc

theorem invariant_issue (c : Call) (p : Pending) (s : AppState)
    (ha : s.CONTRACT_ADDRESS.isSome = true) (hi : SessionInvariant s) :
    SessionInvariant (issue c p s) :=
  ⟨hi.1, fun _ _ _ => ha⟩

theorem checkConnection_cases (s : AppState) :
    checkConnection s = s ∨
      (s.CONTRACT_ADDRESS.isSome = true ∧
        checkConnection s = issue .listAccounts .checkConnectionAccounts s) := by
  unfold checkConnection
  cases h : truthy s.CONTRACT_ADDRESS with
  | false => left; simp
  | true =>
    cases hp : s.provider with
    | false => left; simp
    | true => right; exact ⟨isSome_of_truthy _ h, by simp⟩

theorem connectWallet_cases (s : AppState) :
    (∃ message, connectWallet s = showNotification message .error s) ∨
      (s.CONTRACT_ADDRESS.isSome = true ∧
        connectWallet s = issue .requestAccounts .connectWalletAccounts s) := by
  unfold connectWallet
  cases h : truthy s.CONTRACT_ADDRESS with
  | false => left; exact ⟨"Please set contract address first!", by simp⟩
  | true =>
    cases hp : s.provider with
    | false => left; exact ⟨"Error connecting wallet. Please try again.", by simp [connectWalletCatch]⟩
    | true => right; exact ⟨isSome_of_truthy _ h, by simp⟩

theorem invariant_disconnect (s : AppState) (hi : SessionInvariant s) :
    SessionInvariant (disconnect s) :=
  ⟨rfl, hi.2⟩

theorem invariant_checkConnection (s : AppState) (hi : SessionInvariant s) :
    SessionInvariant (checkConnection s) := by
  rcases checkConnection_cases s with h | ⟨ha, h⟩
  · rw [h]; exact hi
  · rw [h]; exact invariant_issue _ _ s ha hi

theorem invariant_connectWallet (s : AppState) (hi : SessionInvariant s) :
    SessionInvariant (connectWallet s) := by
  rcases connectWallet_cases s with ⟨m, h⟩ | ⟨ha, h⟩
  · rw [h]; exact invariant_of_keeps (keeps_showNotification _ _ s) hi
  · rw [h]; exact invariant_issue _ _ s ha hi

/-- With a contract address set, `bindSession` stores the signer together with the
contract instance, registers the two callbacks on that instance and changes
nothing else of the session. -/
theorem bindSession_bound (signer : Signer) (s : AppState) (address : String)
    (ha : s.CONTRACT_ADDRESS = some address) :
    (bindSession signer s).2 = true ∧
    (bindSession signer s).1.signer = some signer ∧
    (bindSession signer s).1.contract = some ⟨address, signer⟩ ∧
    (bindSession signer s).1.CONTRACT_ADDRESS = some address ∧
    (bindSession signer s).1.storedContractAddress = s.storedContractAddress ∧
    (bindSession signer s).1.listeners
      = s.listeners ++ [⟨.betPlaced, ⟨address, signer⟩⟩, ⟨.betResolved, ⟨address, signer⟩⟩] ∧
    ∀ p ∈ (bindSession signer s).1.pending, p.isConnect = true → p ∈ s.pending := by
  have hk : Keeps { s with signer := some signer, contract := some ⟨address, signer⟩ }
      (loadUserBets (loadGameStats (updateWalletInfo
        { s with signer := some signer, contract := some ⟨address, signer⟩ }))) :=
    keeps_trans (keeps_trans (keeps_updateWalletInfo _) (keeps_loadGameStats _))
      (keeps_loadUserBets _)
  obtain ⟨h1, h2, h3, h4, h5, h6⟩ := hk
  have hb : bindSession signer s
      = (setupEventListeners (loadUserBets (loadGameStats (updateWalletInfo
          { s with signer := some signer, contract := some ⟨address, signer⟩ }))), true) := by
    simp only [bindSession, ha]
  have h2c : (loadUserBets (loadGameStats (updateWalletInfo
      { s with signer := some signer, contract := some ⟨address, signer⟩ }))).contract
      = some ⟨address, signer⟩ := h2
  have hset : setupEventListeners (loadUserBets (loadGameStats (updateWalletInfo
        { s with signer := some signer, contract := some ⟨address, signer⟩ })))
      = { loadUserBets (loadGameStats (updateWalletInfo
            { s with signer := some signer, contract := some ⟨address, signer⟩ })) with
          listeners := (loadUserBets (loadGameStats (updateWalletInfo
            { s with signer := some signer, contract := some ⟨address, signer⟩ }))).listeners
            ++ [⟨.betPlaced, ⟨address, signer⟩⟩, ⟨.betResolved, ⟨address, signer⟩⟩] } := by
    simp only [setupEventListeners, h2c]
  rw [hb, hset]
  exact ⟨rfl, h1, h2, h3.trans ha, h4, by rw [h5], h6⟩

theorem bindSession_unbound (signer : Signer) (s : AppState) (ha : s.CONTRACT_ADDRESS = none) :
    bindSession signer s = ({ s with signer := some signer }, false) := by
  simp only [bindSession, ha]

theorem facts_of_keeps (X : Externals) {s t : AppState} (h : Keeps s t) : TurnFacts X s t :=
  ⟨Or.inl h.2.2.2.1, Or.inl h.2.2.2.2.1, invariant_of_keeps h⟩

theorem facts_checkConnection (X : Externals) (s : AppState) :
    TurnFacts X s (checkConnection s) := by
  refine ⟨?_, ?_, invariant_checkConnection s⟩
  · rcases checkConnection_cases s with h | ⟨_, h⟩ <;> (rw [h]; exact Or.inl rfl)
  · rcases checkConnection_cases s with h | ⟨_, h⟩ <;> (rw [h]; exact Or.inl rfl)

theorem facts_connectWallet (X : Externals) (s : AppState) :
    TurnFacts X s (connectWallet s) := by
  refine ⟨?_, ?_, invariant_connectWallet s⟩
  · rcases connectWallet_cases s with ⟨m, h⟩ | ⟨_, h⟩ <;> (rw [h]; exact Or.inl rfl)
  · rcases connectWallet_cases s with ⟨m, h⟩ | ⟨_, h⟩ <;> (rw [h]; exact Or.inl rfl)

theorem facts_disconnect (X : Externals) (s : AppState) : TurnFacts X s (disconnect s) :=
  ⟨Or.inl rfl, Or.inl rfl, invariant_disconnect s⟩

theorem facts_trans (X : Externals) {s t u : AppState} (h1 : Keeps s t)
    (h2 : TurnFacts X t u) : TurnFacts X s u := by
  obtain ⟨k1, k2, k3, k4, k5, k6⟩ := h1
  obtain ⟨f1, f2, f3⟩ := h2
  refine ⟨?_, ?_, fun hi => f3 (invariant_of_keeps ⟨k1, k2, k3, k4, k5, k6⟩ hi)⟩
  · rcases f1 with f | ⟨a, ha, f⟩
    · exact Or.inl (f.trans k4)
    · exact Or.inr ⟨a, ha, f⟩
  · rcases f2 with f | ⟨c, hc, f⟩
    · exact Or.inl (f.trans k5)
    · exact Or.inr ⟨c, hc, by rw [f, k5]⟩

theorem facts_accountsChanged (X : Externals) (accounts : List String) (s : AppState) :
    TurnFacts X s (accountsChanged accounts s) := by
  cases accounts with
  | nil => exact facts_disconnect X s
  | cons account rest =>
    have h1 : Keeps s { s with userAddress := some account } :=
      ⟨rfl, rfl, rfl, rfl, rfl, fun _ hp _ => hp⟩
    exact facts_of_keeps X
      (keeps_trans (keeps_trans h1 (keeps_updateWalletInfo _)) (keeps_loadUserBets _))

theorem facts_updateConfig (X : Externals) (s : AppState) :
    TurnFacts X s (updateConfig X s) := by
  unfold updateConfig
  dsimp only
  split
  · exact facts_of_keeps X (keeps_showNotification _ _ s)
  · split
    · exact facts_of_keeps X (keeps_showNotification _ _ s)
    · rename_i hv
      have hvalid : X.isAddress (jsTrim s.contractAddressInput) = true := by
        cases h : X.isAddress (jsTrim s.contractAddressInput) with
        | true => rfl
        | false => exact absurd h hv
      have hi : SessionInvariant (disconnect
          (showNotification "Contract address updated! Now connect your wallet." .success
            { s with CONTRACT_ADDRESS := some (jsTrim s.contractAddressInput),
                     storedContractAddress := some (jsTrim s.contractAddressInput) })) :=
        ⟨rfl, fun _ _ _ => rfl⟩
      refine ⟨?_, ?_, fun _ => invariant_checkConnection _ hi⟩
      · right
        refine ⟨jsTrim s.contractAddressInput, hvalid, ?_⟩
        rcases checkConnection_cases (disconnect
          (showNotification "Contract address updated! Now connect your wallet." .success
            { s with CONTRACT_ADDRESS := some (jsTrim s.contractAddressInput),
                     storedContractAddress := some (jsTrim s.contractAddressInput) }))
          with h | ⟨_, h⟩ <;> (rw [h]; rfl)
      · left
        rcases checkConnection_cases (disconnect
          (showNotification "Contract address updated! Now connect your wallet." .success
            { s with CONTRACT_ADDRESS := some (jsTrim s.contractAddressInput),
                     storedContractAddress := some (jsTrim s.contractAddressInput) }))
          with h | ⟨_, h⟩ <;> (rw [h]; rfl)

theorem facts_init (X : Externals) (s : AppState) : TurnFacts X s (init X s) := by
  unfold init
  split
  · dsimp only
    split
    · split
      · rename_i saved _ _
        have hi : SessionInvariant s → SessionInvariant
            { s with provider := true, CONTRACT_ADDRESS := some saved,
                     contractAddressInput := saved } :=
          fun h => ⟨h.1, fun _ _ _ => rfl⟩
        refine ⟨?_, ?_, fun h => invariant_checkConnection _ (hi h)⟩
        · left
          rcases checkConnection_cases
            { s with provider := true, CONTRACT_ADDRESS := some saved,
                     contractAddressInput := saved } with h | ⟨_, h⟩ <;> (rw [h]; try rfl)
        · left
          rcases checkConnection_cases
            { s with provider := true, CONTRACT_ADDRESS := some saved,
                     contractAddressInput := saved } with h | ⟨_, h⟩ <;> (rw [h]; try rfl)
      · exact facts_of_keeps X ⟨rfl, rfl, rfl, rfl, rfl, fun _ hp _ => hp⟩
    · exact facts_of_keeps X ⟨rfl, rfl, rfl, rfl, rfl, fun _ hp _ => hp⟩
  · exact facts_of_keeps X (keeps_showNotification _ _ s)

theorem facts_then_keeps (X : Externals) {s t u : AppState} (h1 : TurnFacts X s t)
    (h2 : Keeps t u) : TurnFacts X s u := by
  obtain ⟨k1, k2, k3, k4, k5, k6⟩ := h2
  obtain ⟨f1, f2, f3⟩ := h1
  refine ⟨?_, ?_, fun hi => invariant_of_keeps ⟨k1, k2, k3, k4, k5, k6⟩ (f3 hi)⟩
  · rcases f1 with f | ⟨a, ha, f⟩
    · exact Or.inl (k4.trans f)
    · exact Or.inr ⟨a, ha, k4.trans f⟩
  · rcases f2 with f | ⟨c, hc, f⟩
    · exact Or.inl (k5.trans f)
    · exact Or.inr ⟨c, k2.trans hc, k5.trans f⟩

/-- What `bindSession` does to the stored address, the callbacks and, when a
contract address is set, the session invariant. -/
theorem facts_bindSession (X : Externals) (signer : Signer) (s : AppState) :
    StoredValid X s (bindSession signer s).1 ∧ ListenersGrow s (bindSession signer s).1 ∧
    (s.CONTRACT_ADDRESS.isSome = true → SessionInvariant (bindSession signer s).1) := by
  rcases Option.eq_none_or_eq_some s.CONTRACT_ADDRESS with ha | ⟨address, ha⟩
  · rw [bindSession_unbound signer s ha]
    refine ⟨Or.inl rfl, Or.inl rfl, ?_⟩
    intro h
    rw [ha] at h
    exact absurd h (by decide)
  · obtain ⟨_, h1, h2, h3, h4, h5, _⟩ := bindSession_bound signer s address ha
    refine ⟨Or.inl h4, Or.inr ⟨_, h2, h5⟩, fun _ => ?_⟩
    exact ⟨by rw [h1, h2]; rfl, fun _ _ _ => by rw [h3]; rfl⟩

theorem connectWalletOnSigner_ok (signer : Signer) (s : AppState) :
    ∃ message kind, connectWalletOnSigner (.ok signer) s
      = showNotification message kind (bindSession signer s).1 := by
  unfold connectWalletOnSigner
  dsimp only
  split
  · rename_i s1 heq
    exact ⟨_, _, by rw [heq]⟩
  · rename_i s1 heq
    exact ⟨_, _, by rw [heq]; rfl⟩

/-- Every settling of an awaited operation keeps the turn facts. -/
theorem facts_settle (X : Externals) (p : Pending) (r : p.Outcome) (s : AppState)
    (hmem : p ∈ s.pending) : TurnFacts X s (settle p r s) := by
  have hk := keeps_erase p s
  cases p with
  | updateWalletInfoBalance =>
    exact facts_of_keeps X (keeps_trans hk (keeps_updateWalletInfoOnBalance r _))
  | loadGameStatsNextBetId =>
    exact facts_of_keeps X (keeps_trans hk (keeps_loadGameStatsOnNextBetId r _))
  | loadGameStatsBalance n =>
    exact facts_of_keeps X (keeps_trans hk (keeps_loadGameStatsOnBalance n r _))
  | loadUserBetsIds =>
    exact facts_of_keeps X (keeps_trans hk (keeps_loadUserBetsOnIds r _))
  | loadUserBetsBet betId rest =>
    exact facts_of_keeps X (keeps_trans hk (keeps_loadUserBetsOnBet betId rest r _))
  | placeCoinBetSubmit =>
    exact facts_of_keeps X (keeps_trans hk (keeps_placeCoinBetOnSubmit r _))
  | placeCoinBetWait =>
    exact facts_of_keeps X (keeps_trans hk (keeps_placeCoinBetOnWait r _))
  | placeDiceBetSubmit =>
    exact facts_of_keeps X (keeps_trans hk (keeps_placeDiceBetOnSubmit r _))
  | placeDiceBetWait =>
    exact facts_of_keeps X (keeps_trans hk (keeps_placeDiceBetOnWait r _))
  | checkConnectionAccounts =>
    have ha : SessionInvariant s → s.CONTRACT_ADDRESS.isSome = true :=
      fun hi => hi.2 _ hmem rfl
    show TurnFacts X s (checkConnectionOnAccounts r
      { s with pending := s.pending.erase .checkConnectionAccounts })
    unfold checkConnectionOnAccounts
    split
    · split
      · refine ⟨Or.inl rfl, Or.inl rfl, fun hi => ?_⟩
        exact invariant_issue _ _ _ (ha hi)
          ⟨hi.1, fun q hq hc => hi.2 q (List.mem_of_mem_erase hq) hc⟩
      · exact facts_of_keeps X
          ⟨rfl, rfl, rfl, rfl, rfl, fun _ hq _ => List.mem_of_mem_erase hq⟩
    · exact facts_of_keeps X hk
  | connectWalletAccounts =>
    have ha : SessionInvariant s → s.CONTRACT_ADDRESS.isSome = true :=
      fun hi => hi.2 _ hmem rfl
    show TurnFacts X s (connectWalletOnAccounts r
      { s with pending := s.pending.erase .connectWalletAccounts })
    unfold connectWalletOnAccounts
    split
    · exact facts_of_keeps X
        ⟨rfl, rfl, rfl, rfl, rfl, fun _ hq _ => List.mem_of_mem_erase hq⟩
    · split
      · refine ⟨Or.inl rfl, Or.inl rfl, fun hi => ?_⟩
        exact invariant_issue _ _ _ (ha hi)
          ⟨hi.1, fun q hq hc => hi.2 q (List.mem_of_mem_erase hq) hc⟩
      · exact facts_of_keeps X
          ⟨rfl, rfl, rfl, rfl, rfl, fun _ hq _ => List.mem_of_mem_erase hq⟩
  | checkConnectionSigner =>
    have ha : SessionInvariant s → s.CONTRACT_ADDRESS.isSome = true :=
      fun hi => hi.2 _ hmem rfl
    show TurnFacts X s (checkConnectionOnSigner r
      { s with pending := s.pending.erase .checkConnectionSigner })
    unfold checkConnectionOnSigner
    split
    · exact facts_of_keeps X hk
    · rename_i signer
      obtain ⟨f1, f2, f3⟩ := facts_bindSession X signer
        { s with pending := s.pending.erase .checkConnectionSigner }
      exact ⟨f1, f2, fun hi => f3 (ha hi)⟩
  | connectWalletSigner =>
    have ha : SessionInvariant s → s.CONTRACT_ADDRESS.isSome = true :=
      fun hi => hi.2 _ hmem rfl
    show TurnFacts X s (connectWalletOnSigner r
      { s with pending := s.pending.erase .connectWalletSigner })
    cases r with
    | error e =>
      exact facts_of_keeps X
        ⟨rfl, rfl, rfl, rfl, rfl, fun _ hq _ => List.mem_of_mem_erase hq⟩
    | ok signer =>
      obtain ⟨message, kind, heq⟩ := connectWalletOnSigner_ok signer
        { s with pending := s.pending.erase .connectWalletSigner }
      rw [heq]
      obtain ⟨f1, f2, f3⟩ := facts_bindSession X signer
        { s with pending := s.pending.erase .connectWalletSigner }
      exact facts_then_keeps X (s := s) ⟨f1, f2, fun hi => f3 (ha hi)⟩
        (keeps_showNotification _ _ _)

/-- Every turn keeps the stored address valid, only adds callbacks, and preserves
the session invariant. -/
theorem facts_step (X : Externals) (s t : AppState) (h : Step X s t) : TurnFacts X s t := by
  cases h with
  | init => exact facts_init X s
  | connectWallet => exact facts_connectWallet X s
  | checkConnection => exact facts_checkConnection X s
  | updateConfig => exact facts_updateConfig X s
  | accountsChanged accounts _ _ => exact facts_accountsChanged X accounts s
  | disconnect => exact facts_disconnect X s
  | refreshStats => exact facts_of_keeps X (keeps_loadGameStats s)
  | autoRefresh => exact facts_of_keeps X (keeps_autoRefresh s)
  | placeCoinBet => exact facts_of_keeps X (keeps_placeCoinBet X s)
  | placeDiceBet => exact facts_of_keeps X (keeps_placeDiceBet X s)
  | selectCoin value => exact facts_of_keeps X ⟨rfl, rfl, rfl, rfl, rfl, fun _ hp _ => hp⟩
  | selectDice value => exact facts_of_keeps X ⟨rfl, rfl, rfl, rfl, rfl, fun _ hp _ => hp⟩
  | typeContractAddress value =>
    exact facts_of_keeps X ⟨rfl, rfl, rfl, rfl, rfl, fun _ hp _ => hp⟩
  | typeCoinAmount value => exact facts_of_keeps X ⟨rfl, rfl, rfl, rfl, rfl, fun _ hp _ => hp⟩
  | typeDiceAmount value => exact facts_of_keeps X ⟨rfl, rfl, rfl, rfl, rfl, fun _ hp _ => hp⟩
  | settle p r _ hmem => exact facts_settle X p r s hmem
  | betPlaced c player _ _ _ hok => exact facts_of_keeps X (keeps_onBetPlaced player s t hok)
  | betResolved c betId player result won payout _ _ _ hok =>
    exact facts_of_keeps X (keeps_onBetResolved betId player result won payout s t hok)
  | refreshTimer _ _ => exact facts_of_keeps X (keeps_refreshTimer s)

theorem invariant_reachable (X : Externals) (s : AppState) (h : Reachable X s) :
    SessionInvariant s := by
  induction h with
  | start s hinit =>
    obtain ⟨_, _, h3, h4, _, _, _, _, _, _, h11, _, _⟩ := hinit
    refine ⟨by simp [h3, h4], ?_⟩
    intro p hp
    rw [h11] at hp
    cases hp
  | step s t _ hstep ih => exact (facts_step X s t hstep).2.2 ih

/-! ## The session invariant -/

/-- C11 (as amended): in every reachable state the signer is present exactly when
the contract binding is, and a Connected session has the account, the signer
and the contract binding; a connect that fails leaves the signer and the contract
binding as they were.  The account is not tied to the signer: `connectWallet`
stores `accounts[0]` before it awaits `getSigner`. -/
theorem signer_iff_contract (X : Externals) (s : AppState) (h : Reachable X s) :
    (s.signer.isSome = true ↔ s.contract.isSome = true) ∧
    (s.connected = true →
      s.userAddress.isSome = true ∧ s.signer.isSome = true ∧ s.contract.isSome = true) ∧
    (∀ e, (connectWalletOnSigner (.error e) s).signer = s.signer ∧
      (connectWalletOnSigner (.error e) s).contract = s.contract) ∧
    (∀ e, (connectWalletOnAccounts (.error e) s).signer = s.signer ∧
      (connectWalletOnAccounts (.error e) s).contract = s.contract ∧
      (connectWalletOnAccounts (.error e) s).userAddress = s.userAddress) := by
  have hi := invariant_reachable X s h
  refine ⟨by rw [hi.1], ?_, fun e => ⟨rfl, rfl⟩, fun e => ⟨rfl, rfl, rfl⟩⟩
  intro hc
  unfold AppState.connected at hc
  rw [Bool.and_eq_true] at hc
  exact ⟨isSome_of_truthy _ hc.2, by rw [hi.1]; exact hc.1, hc.1⟩

/-- The claim C11 as amended, applied to the Connected session of Alice. -/
theorem signer_iff_contract_witness :
    (aliceConnected.signer.isSome = true ↔ aliceConnected.contract.isSome = true) :=
  (signer_iff_contract browser aliceConnected aliceConnected_reachable).1

/-- C11 as stated fails: the wallet grants the account of Alice and then
`getSigner` fails; in the reachable state after this failed connect the account
is set while the signer and the contract binding are not, and the session is
not Connected. -/
theorem failed_connect_keeps_account :
    Reachable browser aliceRefused ∧
    aliceRefused.userAddress = some aliceAddress ∧ aliceRefused.signer = none ∧
    aliceRefused.contract = none ∧ aliceRefused.connected = false :=
  ⟨Reachable.step _ _ aliceGranted_reachable
      (Step.settle .connectWalletSigner (.error "user rejected the request") aliceGranted
        (by decide)),
    by decide, by decide, by decide, by decide⟩

/-! ## The contract address -/

/-- C15: when the input, trimmed, is empty or is not an address, `updateConfig`
shows an error notification and changes nothing else, so the contract address in
memory, the stored one and the session are as before; in every turn the stored
address either stays or is written with a string that passes the address check;
and `init` leaves the address in memory as it was when the stored value fails
the check. -/
theorem updateConfig_rejects_invalid (X : Externals) (s : AppState) :
    ((jsTrim s.contractAddressInput = "" ∨ X.isAddress (jsTrim s.contractAddressInput) = false) →
      ∃ message, updateConfig X s = showNotification message .error s) ∧
    (∀ t, Step X s t → t.storedContractAddress = s.storedContractAddress ∨
      ∃ address, X.isAddress address = true ∧ t.storedContractAddress = some address) ∧
    (∀ address, s.storedContractAddress = some address → X.isAddress address = false →
      (init X s).CONTRACT_ADDRESS = s.CONTRACT_ADDRESS ∧
      (init X s).storedContractAddress = s.storedContractAddress) := by
  refine ⟨?_, fun t h => (facts_step X s t h).1, ?_⟩
  · intro h
    by_cases h1 : jsTrim s.contractAddressInput = ""
    · exact ⟨"Please enter a contract address!", by simp [updateConfig, h1]⟩
    · have h2 : X.isAddress (jsTrim s.contractAddressInput) = false := by
        rcases h with h | h
        · exact absurd h h1
        · exact h
      exact ⟨"Please enter a valid contract address!", by simp [updateConfig, h1, h2]⟩
  · intro address hs hv
    cases he : s.ethereum with
    | false => simp [init, he, showNotification]
    | true => simp [init, he, hs, hv, showNotification]

/-- The claim C15 applied to the page on which the letters "abc" are typed as the
contract address. -/
theorem updateConfig_rejects_invalid_witness :
    ∃ message, updateConfig browser { pageWithInput with contractAddressInput := "  abc " }
      = showNotification message .error
          { pageWithInput with contractAddressInput := "  abc " } :=
  (updateConfig_rejects_invalid browser
    { pageWithInput with contractAddressInput := "  abc " }).1 (Or.inr (by decide))

/-! ## Contract events -/

theorem aliceGone_reachable : Reachable browser aliceGone :=
  Reachable.step _ _ aliceConnected_reachable
    (Step.accountsChanged [] aliceConnected (by decide))

theorem aliceBack_reachable : Reachable browser aliceBack :=
  Reachable.step _ _
    (Reachable.step _ _
      (Reachable.step _ _ aliceGone_reachable (Step.connectWallet aliceGone))
      (Step.settle .connectWalletAccounts (.ok [aliceAddress]) (connectWallet aliceGone)
        (by decide)))
    (Step.settle .connectWalletSigner (.ok ⟨aliceAddress⟩) _ (by decide))

/-- With an account set, the `BetResolved` callback returns normally and leaves the
cache as it is; with no account it throws. -/
theorem onBetResolved_cases (betId : Nat) (player : String) (result : Nat) (won : Bool)
    (payout : Nat) (s : AppState) :
    (s.userAddress = none →
      onBetResolved betId player result won payout s = .error "TypeError") ∧
    (∀ t, onBetResolved betId player result won payout s = .ok t →
      t.userBets = s.userBets ∧ s.userAddress.isSome = true) := by
  constructor
  · intro h
    simp [onBetResolved, h]
  · intro t h
    unfold onBetResolved at h
    split at h
    · cases h
    · rename_i a ha
      split at h
      · cases h
        exact ⟨by cases won <;> rfl, by rw [ha]; rfl⟩
      · cases h
        exact ⟨rfl, by rw [ha]; rfl⟩

/-- C16 at the failing state: after the wallet of Alice reported an empty account
list, `disconnect` has cleared `userAddress` but the `BetResolved` callback is
still registered; a `BetResolved` event for bet 7, which is not in the cache,
makes the callback throw a `TypeError`. -/
theorem onBetResolved_throws_after_disconnect :
    Reachable browser aliceGone ∧
    ⟨.betResolved, ⟨contractAddress, ⟨aliceAddress⟩⟩⟩ ∈ aliceGone.listeners ∧
    aliceGone.userAddress = none ∧ aliceGone.userBets = [] ∧
    onBetResolved 7 aliceAddress 1 true 19000000000000000 aliceGone = .error "TypeError" :=
  ⟨aliceGone_reachable, by decide, by decide, by decide, rfl⟩

/-- The `BetResolved` callback run on a sequence of events leaves the cache as it
is. -/
theorem handleResolved_cache : ∀ (events : List ResolvedEvent) (s t : AppState),
    handleResolved events s = .ok t → t.userBets = s.userBets
  | [], s, t, h => by
    simp only [handleResolved, Except.ok.injEq] at h
    rw [h]
  | e :: rest, s, t, h => by
    unfold handleResolved at h
    split at h
    · rename_i u hu
      have h1 := (onBetResolved_cases e.betId e.player e.result e.won e.payout s).2 u hu
      rw [handleResolved_cache rest u t h, h1.1]
    · cases h

/-- C17 (as amended): the `BetResolved` callback never patches the cache.  After any
finite sequence of `BetResolved` events handled without error the cache is
exactly what it was, whatever `won` and `payout` the events carry, so handling
the same event twice leaves the same cache as handling it once. -/
theorem betResolved_leaves_cache (s : AppState) (events : List ResolvedEvent)
    (e : ResolvedEvent) :
    (∀ t, handleResolved events s = .ok t → t.userBets = s.userBets) ∧
    (∀ t u, handleResolved [e] s = .ok t → handleResolved [e, e] s = .ok u →
      u.userBets = t.userBets) := by
  refine ⟨fun t h => handleResolved_cache events s t h, ?_⟩
  intro t u ht hu
  rw [handleResolved_cache _ s t ht, handleResolved_cache _ s u hu]

/-- The claim C17 as amended, applied to the loaded cache of Alice and an event that
reports bet 5 as lost. -/
theorem betResolved_leaves_cache_witness :
    (AppState.userBets
      { showNotification "Sorry, you lost this bet. Better luck next time!" .error
          aliceLoaded with refreshTimers := 1 }) = aliceLoaded.userBets :=
  (betResolved_leaves_cache aliceLoaded [⟨5, aliceAddress, 0, false, 0⟩]
    ⟨5, aliceAddress, 0, false, 0⟩).1 _ rfl

/-- C17 as stated fails: bet 5 is cached with `won` true and its payout; after a
`BetResolved` event for bet 5 that carries `won` false and payout 0 is handled,
the cached bet is as before. -/
theorem betResolved_does_not_patch :
    handleResolved [⟨5, aliceAddress, 0, false, 0⟩] aliceLoaded
      = .ok { showNotification "Sorry, you lost this bet. Better luck next time!" .error
                aliceLoaded with refreshTimers := 1 } ∧
    ((aliceLoaded.userBets.filter (fun b => b.id = "5")).map (fun b => (b.won, b.payout)))
      = [(true, 19000000000000000)] ∧
    (((AppState.userBets
          { showNotification "Sorry, you lost this bet. Better luck next time!" .error
              aliceLoaded with refreshTimers := 1 }).filter (fun b : Bet => b.id = "5")).map
        (fun b : Bet => (b.won, b.payout)))
      = [(true, 19000000000000000)] :=
  ⟨rfl, by decide, by decide⟩

/-! ## Registered callbacks -/

theorem listenerCount_append (kind : EventKind) (s t : AppState) (added : List Listener)
    (h : t.listeners = s.listeners ++ added) :
    listenerCount kind t
      = listenerCount kind s + (added.filter (fun l => l.kind = kind)).length := by
  simp [listenerCount, h]

/-- C18 (as amended): no turn removes a callback.  In every turn the number of
callbacks registered for each event either stays or grows by one, and it grows
for both events together; `disconnect` leaves the callbacks registered; a
completed connection with a contract address set registers exactly one more
callback per event, on the new contract instance; so in every reachable state
the two events have the same number of callbacks. -/
theorem listeners_only_grow (X : Externals) :
    (∀ s t, Step X s t →
      (listenerCount .betPlaced t = listenerCount .betPlaced s ∧
        listenerCount .betResolved t = listenerCount .betResolved s) ∨
      (listenerCount .betPlaced t = listenerCount .betPlaced s + 1 ∧
        listenerCount .betResolved t = listenerCount .betResolved s + 1)) ∧
    (∀ s, (disconnect s).listeners = s.listeners) ∧
    (∀ signer s address, s.CONTRACT_ADDRESS = some address →
      (bindSession signer s).1.listeners
        = s.listeners ++ [⟨.betPlaced, ⟨address, signer⟩⟩, ⟨.betResolved, ⟨address, signer⟩⟩]) ∧
    (∀ s, Reachable X s → listenerCount .betPlaced s = listenerCount .betResolved s) := by
  have hstep : ∀ s t, Step X s t →
      (listenerCount .betPlaced t = listenerCount .betPlaced s ∧
        listenerCount .betResolved t = listenerCount .betResolved s) ∨
      (listenerCount .betPlaced t = listenerCount .betPlaced s + 1 ∧
        listenerCount .betResolved t = listenerCount .betResolved s + 1) := by
    intro s t h
    rcases (facts_step X s t h).2.1 with hl | ⟨c, _, hl⟩
    · left
      simp [listenerCount, hl]
    · right
      rw [listenerCount_append _ s t _ hl, listenerCount_append _ s t _ hl]
      exact ⟨by simp, by simp⟩
  refine ⟨hstep, fun s => rfl, ?_, ?_⟩
  · intro signer s address ha
    exact (bindSession_bound signer s address ha).2.2.2.2.2.1
  · intro s h
    induction h with
    | start s hinit =>
      obtain ⟨_, _, _, _, _, _, _, _, _, _, _, h12, _⟩ := hinit
      simp [listenerCount, h12]
    | step s t _ hst ih =>
      rcases hstep s t hst with ⟨h1, h2⟩ | ⟨h1, h2⟩ <;> omega

/-- The claim C18 as amended, applied to the turn in which the wallet of Alice
reports an empty account list. -/
theorem listeners_only_grow_witness :
    (listenerCount .betPlaced aliceGone = listenerCount .betPlaced aliceConnected ∧
      listenerCount .betResolved aliceGone = listenerCount .betResolved aliceConnected) ∨
    (listenerCount .betPlaced aliceGone = listenerCount .betPlaced aliceConnected + 1 ∧
      listenerCount .betResolved aliceGone = listenerCount .betResolved aliceConnected + 1) :=
  (listeners_only_grow browser).1 aliceConnected aliceGone
    (Step.accountsChanged [] aliceConnected (by decide))

/-- C18 as stated fails: after the wallet of Alice reported an empty account list
the session is not Connected but one callback per event is still registered;
after she connects again the session is Connected with two callbacks per
event. -/
theorem listeners_survive_disconnect :
    Reachable browser aliceGone ∧ aliceGone.connected = false ∧
    listenerCount .betPlaced aliceGone = 1 ∧ listenerCount .betResolved aliceGone = 1 ∧
    Reachable browser aliceBack ∧ aliceBack.connected = true ∧
    listenerCount .betPlaced aliceBack = 2 ∧ listenerCount .betResolved aliceBack = 2 :=
  ⟨aliceGone_reachable, by decide, by decide, by decide,
    aliceBack_reachable, by decide, by decide, by decide⟩

end BettingGame
